import Mathlib

/-!
# Verification of the ATSEP-Toolbox core numeric modules

Shallow embedding, over exact real arithmetic, of the two pure computational
modules of the ATSEP-Toolbox repository:

* `Vicenty.js` — Vincenty direct and inverse geodesics on the WGS-84 ellipsoid,
  with fuel-bounded iterative loops (budget 100, convergence threshold 1e-12);
* `QNH.js` — ICAO barometric altitude correction with input validation and
  pressure range checks (constants mirroring `constants.js`).

JavaScript `number` is modelled by `ℝ`.  The QNH validation layer also handles
the JavaScript non-finite values `NaN`, `Infinity` and `-Infinity`, which are
modelled by the dedicated carrier `QNH.JSNum`; the geodesic formulas themselves
are modelled over `ℝ` (places where IEEE-754 semantics cannot be expressed over
`ℝ` are marked by comments at the corresponding definition).
-/

noncomputable section

open Classical

/-- JS `Math.atan2(y, x)`: the angle of the point `(x, y)`, in `(-π, π]`. -/
def jsAtan2 (y x : ℝ) : ℝ :=
  if 0 < x then Real.arctan (y / x)
  else if x < 0 then
    (if 0 ≤ y then Real.arctan (y / x) + Real.pi else Real.arctan (y / x) - Real.pi)
  else
    (if 0 < y then Real.pi / 2 else if y < 0 then -(Real.pi / 2) else 0)

/-- Truncation toward zero, as used by the JS `%` operator. -/
def jsTrunc (x : ℝ) : ℤ :=
  if 0 ≤ x then ⌊x⌋ else -⌊-x⌋

/-- The JS remainder operator `a % b` (the sign of the result follows the
dividend). -/
def jsRem (a b : ℝ) : ℝ := a - b * jsTrunc (a / b)

/-- JS `Math.round`: rounds to the nearest integer, halves toward `+∞`. -/
def jsRound (x : ℝ) : ℤ := ⌊x + 1 / 2⌋

namespace Vicenty

/-- WGS-84 semi-major axis, meters (`Vicenty.js`). -/
def WGS84_a : ℝ := 6378137.0

/-- WGS-84 semi-minor axis, meters (`Vicenty.js`). -/
def WGS84_b : ℝ := 6356752.314245

/-- WGS-84 flattening (`Vicenty.js`). -/
def WGS84_f : ℝ := 1 / 298.257223563

/-- `toRad` of `Vicenty.js`. -/
def toRad (d : ℝ) : ℝ := d * Real.pi / 180

/-- `toDeg` of `Vicenty.js`. -/
def toDeg (r : ℝ) : ℝ := r * 180 / Real.pi

/-- The per-call quantities of `calculateDistance` computed before its `do`
loop (longitude difference `L` and the reduced-latitude values). -/
structure InvEnv where
  L : ℝ
  sinU1 : ℝ
  cosU1 : ℝ
  sinU2 : ℝ
  cosU2 : ℝ

/-- Lines 97–110 of `calculateDistance` in `Vicenty.js`. -/
def mkInvEnv (lat1 lon1 lat2 lon2 : ℝ) : InvEnv :=
  let phi1 := toRad lat1
  let L1 := toRad lon1
  let phi2 := toRad lat2
  let L2 := toRad lon2
  let tanU1 := (1 - WGS84_f) * Real.tan phi1
  let cosU1 := 1 / Real.sqrt (1 + tanU1 * tanU1)
  let sinU1 := tanU1 * cosU1
  let tanU2 := (1 - WGS84_f) * Real.tan phi2
  let cosU2 := 1 / Real.sqrt (1 + tanU2 * tanU2)
  let sinU2 := tanU2 * cosU2
  { L := L2 - L1, sinU1 := sinU1, cosU1 := cosU1, sinU2 := sinU2, cosU2 := cosU2 }

/-- The loop-local variables of `calculateDistance` as left by one execution of
the `do` body (they are read again after the loop exits). -/
structure InvVars where
  sinLambda : ℝ
  cosLambda : ℝ
  sinSigma : ℝ
  cosSigma : ℝ
  sigma : ℝ
  sinAlpha : ℝ
  cosSqAlpha : ℝ
  cos2SigmaM : ℝ
  lambdaNew : ℝ

/-- One execution of the `do` body of `calculateDistance` (lines 116–137),
starting from the current `lambda`.  `none` is the `sinSigma === 0` early
return (the coincident-points case). -/
def invBody (e : InvEnv) (lambda : ℝ) : Option InvVars :=
  let sinLambda := Real.sin lambda
  let cosLambda := Real.cos lambda
  let sinSigma := Real.sqrt ((e.cosU2 * sinLambda) * (e.cosU2 * sinLambda) +
    (e.cosU1 * e.sinU2 - e.sinU1 * e.cosU2 * cosLambda) *
    (e.cosU1 * e.sinU2 - e.sinU1 * e.cosU2 * cosLambda))
  if sinSigma = 0 then none
  else
    let cosSigma := e.sinU1 * e.sinU2 + e.cosU1 * e.cosU2 * cosLambda
    let sigma := jsAtan2 sinSigma cosSigma
    let sinAlpha := e.cosU1 * e.cosU2 * sinLambda / sinSigma
    let cosSqAlpha := 1 - sinAlpha * sinAlpha
    -- JS computes `cosSigma - 2*sinU1*sinU2/cosSqAlpha` and replaces NaN by 0.
    -- Over ℝ the JS NaN arises exactly in the 0/0 case, i.e. when both
    -- `cosSqAlpha = 0` and `sinU1*sinU2 = 0` (the equatorial geodesic).  When
    -- `cosSqAlpha = 0` with `sinU1*sinU2 ≠ 0`, JS would produce `±Infinity`
    -- (not NaN, so not substituted); Lean's `x/0 = 0` convention yields
    -- `cosSigma` there instead.  No claim depends on that configuration.
    let cos2SigmaM := if cosSqAlpha = 0 ∧ e.sinU1 * e.sinU2 = 0 then 0
      else cosSigma - 2 * e.sinU1 * e.sinU2 / cosSqAlpha
    let C := WGS84_f / 16 * cosSqAlpha * (4 + WGS84_f * (4 - 3 * cosSqAlpha))
    let lambdaNew := e.L + (1 - C) * WGS84_f * sinAlpha *
      (sigma + C * sinSigma * (cos2SigmaM + C * cosSigma *
        (-1 + 2 * cos2SigmaM * cos2SigmaM)))
    some ⟨sinLambda, cosLambda, sinSigma, cosSigma, sigma, sinAlpha, cosSqAlpha,
      cos2SigmaM, lambdaNew⟩

/-- Exit states of the `do … while` loop of `calculateDistance`. -/
inductive InvOutcome where
  | coincident
  | converged (v : InvVars)
  | exhausted

/-- The `do … while (Math.abs(lambda - lambdaP) > 1e-12 && --iterLimit > 0)`
loop of `calculateDistance`, with `iterLimit` as structural fuel (entered with
fuel 100).  The second component counts how many times the loop body ran.
A decrement of `iterLimit` happens exactly when the convergence test fails, so
reaching fuel 0 is the JS `iterLimit === 0` throw. -/
def invLoop (e : InvEnv) : ℕ → ℝ → InvOutcome × ℕ
  | 0, _ => (.exhausted, 0)
  | fuel + 1, lambda =>
    match invBody e lambda with
    | none => (.coincident, 1)
    | some v =>
      if 1e-12 < |v.lambdaNew - lambda| then
        let r := invLoop e fuel v.lambdaNew
        (r.1, r.2 + 1)
      else (.converged v, 1)

/-- The error taxonomy of the geodesy engine: both `throw new Error(...)` sites
signal non-convergence of the iteration. -/
inductive GeoError where
  | convergenceError

/-- The result record of `calculateDistance`. -/
structure InverseResult where
  distance : ℝ
  initialBearing : ℝ
  isCoincident : Bool

/-- Lines 145–160 of `calculateDistance`: the distance, bearing and result
record computed after the loop converged, from the variables left by the last
body execution. -/
def invFinish (e : InvEnv) (v : InvVars) : InverseResult :=
  let uSq := v.cosSqAlpha * (WGS84_a * WGS84_a - WGS84_b * WGS84_b) /
    (WGS84_b * WGS84_b)
  let A := 1 + uSq / 16384 * (4096 + uSq * (-768 + uSq * (320 - 175 * uSq)))
  let B := uSq / 1024 * (256 + uSq * (-128 + uSq * (74 - 47 * uSq)))
  let deltaSigma := B * v.sinSigma * (v.cos2SigmaM + B / 4 *
    (v.cosSigma * (-1 + 2 * v.cos2SigmaM * v.cos2SigmaM) -
      B / 6 * v.cos2SigmaM * (-3 + 4 * v.sinSigma * v.sinSigma) *
        (-3 + 4 * v.cos2SigmaM * v.cos2SigmaM)))
  let s := WGS84_b * A * (v.sigma - deltaSigma)
  let fwdAz := jsAtan2 (e.cosU2 * v.sinLambda)
    (e.cosU1 * e.sinU2 - e.sinU1 * e.cosU2 * v.cosLambda)
  let initialBearing := jsRem (toDeg fwdAz + 360) 360
  ⟨s, initialBearing, false⟩

/-- `calculateDistance` of `Vicenty.js` (the inverse problem). -/
def calculateDistance (lat1 lon1 lat2 lon2 : ℝ) : Except GeoError InverseResult :=
  let e := mkInvEnv lat1 lon1 lat2 lon2
  match (invLoop e 100 e.L).1 with
  | .coincident => .ok ⟨0, 0, true⟩
  | .converged v => .ok (invFinish e v)
  | .exhausted => .error .convergenceError

/-- The sequence of `lambda` iterates of the `calculateDistance` loop, started
at `lam0` (when the body signals coincidence the value is simply carried
over — the loop has stopped by then). -/
def invIter (e : InvEnv) (lam0 : ℝ) : ℕ → ℝ
  | 0 => lam0
  | k + 1 =>
    match invBody e (invIter e lam0 k) with
    | none => invIter e lam0 k
    | some v => v.lambdaNew

/-- The per-call quantities of `calculateDestination` computed before its
`while` loop (lines 27–45 of `Vicenty.js`). -/
structure DirEnv where
  L1 : ℝ
  s : ℝ
  sinAlpha1 : ℝ
  cosAlpha1 : ℝ
  sinU1 : ℝ
  cosU1 : ℝ
  sigma1 : ℝ
  sinAlpha : ℝ
  cosSqAlpha : ℝ
  bigA : ℝ
  bigB : ℝ

/-- Lines 27–45 of `calculateDestination` in `Vicenty.js`. -/
def mkDirEnv (lat1 lon1 distanceMeters bearingDegrees : ℝ) : DirEnv :=
  let phi1 := toRad lat1
  let L1 := toRad lon1
  let alpha1 := toRad bearingDegrees
  let s := distanceMeters
  let sinAlpha1 := Real.sin alpha1
  let cosAlpha1 := Real.cos alpha1
  let tanU1 := (1 - WGS84_f) * Real.tan phi1
  let cosU1 := 1 / Real.sqrt (1 + tanU1 * tanU1)
  let sinU1 := tanU1 * cosU1
  let sigma1 := jsAtan2 tanU1 cosAlpha1
  let sinAlpha := cosU1 * sinAlpha1
  let cosSqAlpha := 1 - sinAlpha * sinAlpha
  let uSq := cosSqAlpha * (WGS84_a * WGS84_a - WGS84_b * WGS84_b) /
    (WGS84_b * WGS84_b)
  let A := 1 + uSq / 16384 * (4096 + uSq * (-768 + uSq * (320 - 175 * uSq)))
  let B := uSq / 1024 * (256 + uSq * (-128 + uSq * (74 - 47 * uSq)))
  ⟨L1, s, sinAlpha1, cosAlpha1, sinU1, cosU1, sigma1, sinAlpha, cosSqAlpha, A, B⟩

/-- The initial `sigma` of the `calculateDestination` loop, `s / (b*A)`. -/
def DirEnv.sOverbA (d : DirEnv) : ℝ := d.s / (WGS84_b * d.bigA)

/-- The loop-local variables of `calculateDestination` as left by one execution
of the `while` body (read again after the loop exits). -/
structure DirVars where
  cos2SigmaM : ℝ
  sinSigma : ℝ
  cosSigma : ℝ
  deltaSigma : ℝ

/-- One execution of the `while` body of `calculateDestination`
(lines 52–59), starting from the current `sigma`. -/
def dirBody (d : DirEnv) (sigma : ℝ) : DirVars :=
  let cos2SigmaM := Real.cos (2 * d.sigma1 + sigma)
  let sinSigma := Real.sin sigma
  let cosSigma := Real.cos sigma
  let deltaSigma := d.bigB * sinSigma * (cos2SigmaM + d.bigB / 4 *
    (cosSigma * (-1 + 2 * cos2SigmaM * cos2SigmaM) -
      d.bigB / 6 * cos2SigmaM * (-3 + 4 * sinSigma * sinSigma) *
        (-3 + 4 * cos2SigmaM * cos2SigmaM)))
  ⟨cos2SigmaM, sinSigma, cosSigma, deltaSigma⟩

/-- Exit states of the `while` loop of `calculateDestination`.  `converged`
carries the current `sigma` and the variables of the last body run (`none` if
the body never ran, i.e. the JS locals stayed `undefined`). -/
inductive DirOutcome where
  | converged (sigma : ℝ) (last : Option DirVars)
  | exhausted

/-- The `while (Math.abs(sigma - sigmaP) > 1e-12 && --iterLimit > 0)` loop of
`calculateDestination`, with `iterLimit` as fuel (entered with fuel 100,
`sigmaP = 2π`).  The second component counts body executions.  When the
convergence test fails at fuel 1 the JS `--iterLimit` reaches 0: the loop
exits without running the body and the function throws. -/
def dirLoop (d : DirEnv) : ℕ → ℝ → ℝ → Option DirVars → DirOutcome × ℕ
  | 0, sigma, sigmaP, last =>
    if 1e-12 < |sigma - sigmaP| then (.exhausted, 0) else (.converged sigma last, 0)
  | 1, sigma, sigmaP, last =>
    if 1e-12 < |sigma - sigmaP| then (.exhausted, 0) else (.converged sigma last, 0)
  | fuel + 2, sigma, sigmaP, last =>
    if 1e-12 < |sigma - sigmaP| then
      let v := dirBody d sigma
      let r := dirLoop d (fuel + 1) (d.sOverbA + v.deltaSigma) sigma (some v)
      (r.1, r.2 + 1)
    else (.converged sigma last, 0)

/-- The result record of `calculateDestination`. -/
structure DestResult where
  lat : ℝ
  lon : ℝ

/-- Lines 66–85 of `calculateDestination`: destination coordinates computed
after the loop converged. -/
def dirFinish (d : DirEnv) (sigma : ℝ) (v : DirVars) : DestResult :=
  let tmp := d.sinU1 * v.sinSigma - d.cosU1 * v.cosSigma * d.cosAlpha1
  let phi2 := jsAtan2 (d.sinU1 * v.cosSigma + d.cosU1 * v.sinSigma * d.cosAlpha1)
    ((1 - WGS84_f) * Real.sqrt (d.sinAlpha * d.sinAlpha + tmp * tmp))
  let lambda := jsAtan2 (v.sinSigma * d.sinAlpha1)
    (d.cosU1 * v.cosSigma - d.sinU1 * v.sinSigma * d.cosAlpha1)
  let C := WGS84_f / 16 * d.cosSqAlpha * (4 + WGS84_f * (4 - 3 * d.cosSqAlpha))
  let Lout := lambda - (1 - C) * WGS84_f * d.sinAlpha *
    (sigma + C * v.sinSigma * (v.cos2SigmaM + C * v.cosSigma *
      (-1 + 2 * v.cos2SigmaM * v.cos2SigmaM)))
  let L2 := d.L1 + Lout
  ⟨toDeg phi2, toDeg L2⟩

/-- `calculateDestination` of `Vicenty.js` (the direct problem).  The payload
`none` models the `{lat: NaN, lon: NaN}` record JS produces in the (extreme)
case where the loop body never ran, so that the locals used afterwards stayed
`undefined` and every downstream arithmetic produced NaN. -/
def calculateDestination (lat1 lon1 distanceMeters bearingDegrees : ℝ) :
    Except GeoError (Option DestResult) :=
  let d := mkDirEnv lat1 lon1 distanceMeters bearingDegrees
  match (dirLoop d 100 d.sOverbA (2 * Real.pi) none).1 with
  | .converged sigma last => .ok (last.map (fun v => dirFinish d sigma v))
  | .exhausted => .error .convergenceError

/-- The sequence of `sigma` iterates of the `calculateDestination` loop,
started at `sigma0`. -/
def dirIter (d : DirEnv) (sigma0 : ℝ) : ℕ → ℝ
  | 0 => sigma0
  | k + 1 => d.sOverbA + (dirBody d (dirIter d sigma0 k)).deltaSigma

/-- The value the `calculateDestination` convergence test compares the `k`-th
iterate against: the sentinel `sigmaP0 = 2π` at the first test, afterwards the
previous iterate. -/
def dirPrev (d : DirEnv) (sigma0 sigmaP0 : ℝ) : ℕ → ℝ
  | 0 => sigmaP0
  | k + 1 => dirIter d sigma0 k

end Vicenty

namespace QNH

/-- `constants.js` / `QNH.js`: standard sea-level pressure, hPa. -/
def STANDARD_PRESSURE_HPA : ℝ := 1013.25

/-- `constants.js` / `QNH.js`: inches of mercury to hectopascals. -/
def INHG_TO_HPA : ℝ := 33.86389

/-- `constants.js` / `QNH.js`: feet to meters. -/
def FEET_TO_METERS : ℝ := 0.3048

/-- `constants.js` / `QNH.js`: standard sea-level temperature, K. -/
def T0 : ℝ := 288.15

/-- `constants.js` / `QNH.js`: standard temperature lapse rate, K/m. -/
def L : ℝ := 0.0065

/-- `constants.js` / `QNH.js`: gravitational acceleration, m/s². -/
def g : ℝ := 9.80665

/-- `constants.js` / `QNH.js`: specific gas constant of dry air, J/(kg·K). -/
def Rs : ℝ := 287.05287

/-- A JavaScript `number` as seen by the validation layer of `QNH.calculate`:
either one of the IEEE-754 non-finite values or a finite real. -/
inductive JSNum where
  | nan
  | posInf
  | negInf
  | fin (x : ℝ)

/-- JS `isNaN` on a number. -/
def JSNum.isNaN : JSNum → Prop
  | .nan => True
  | _ => False

/-- JS `p <= c` for a finite constant `c` (false on NaN and on `Infinity`). -/
def JSNum.leR : JSNum → ℝ → Prop
  | .nan, _ => False
  | .posInf, _ => False
  | .negInf, _ => True
  | .fin x, c => x ≤ c

/-- JS `p < c` for a finite constant `c` (false on NaN and on `Infinity`). -/
def JSNum.ltR : JSNum → ℝ → Prop
  | .nan, _ => False
  | .posInf, _ => False
  | .negInf, _ => True
  | .fin x, c => x < c

/-- JS `p > c` for a finite constant `c` (false on NaN and on `-Infinity`). -/
def JSNum.gtR : JSNum → ℝ → Prop
  | .nan, _ => False
  | .posInf, _ => True
  | .negInf, _ => False
  | .fin x, c => c < x

/-- JS multiplication of a number by a positive finite constant (used for the
`inHg → hPa` conversion factor 33.86389: infinities keep their sign, NaN
propagates). -/
def JSNum.mulPos : JSNum → ℝ → JSNum
  | .nan, _ => .nan
  | .posInf, _ => .posInf
  | .negInf, _ => .negInf
  | .fin x, c => .fin (x * c)

/-- The real value of a finite `JSNum`.  In `calculate` this is only reached
after the range check, which confines the pressure to `[850, 1100]`, hence to
a finite value; the default 0 on the non-finite constructors is unreachable
there. -/
def JSNum.toReal : JSNum → ℝ
  | .fin x => x
  | _ => 0

/-- The tagged failures of `QNH.calculate` (`ERROR_MESSAGES.INVALID_PRESSURE`
and `ERROR_MESSAGES.PRESSURE_OUT_OF_RANGE`). -/
inductive QNHError where
  | invalidInput
  | outOfRange

/-- The success record of `QNH.calculate`.  `correction`, `pressureAltitude`
and `unit` are `Option`s because JS leaves the corresponding locals
`undefined` when `outputUnit` is not one of `'FL'`, `'feet'`, `'meters'`. -/
structure AtmosphereResult where
  correction : Option ℤ
  pressureAltitude : Option ℤ
  unit : Option String
  warning : Bool

/-- Line 127 of `QNH.js`: the barometric correction in feet. -/
def correctionInFeet (pressureInHPa : ℝ) : ℝ :=
  ((pressureInHPa / STANDARD_PRESSURE_HPA) ^ (Rs * L / g) - 1) *
    (T0 / L / FEET_TO_METERS)

/-- `QNH.calculate` (lines 85–156 of `QNH.js`). -/
def calculate (rawValue : JSNum) (inputUnit outputUnit : String) :
    Except QNHError AtmosphereResult :=
  if rawValue.isNaN ∨ rawValue.leR 0 then .error .invalidInput
  else
    let pressureInHPa := if inputUnit = "inHg" then rawValue.mulPos INHG_TO_HPA
      else rawValue
    if pressureInHPa.ltR 850 ∨ pressureInHPa.gtR 1100 then .error .outOfRange
    else
      let warning : Bool :=
        if pressureInHPa.ltR 920 ∨ pressureInHPa.gtR 1060 then true else false
      let cf := correctionInFeet pressureInHPa.toReal
      if outputUnit = "FL" then
        .ok ⟨some (jsRound (cf / 100)), some (jsRound ((-cf) / 100)),
          some "FL", warning⟩
      else if outputUnit = "feet" then
        .ok ⟨some (jsRound cf), some (jsRound (-cf)), some "ft", warning⟩
      else if outputUnit = "meters" then
        .ok ⟨some (jsRound (cf * FEET_TO_METERS)),
          some (jsRound ((-cf) * FEET_TO_METERS)), some "m", warning⟩
      else
        .ok ⟨none, none, none, warning⟩

/-- The hPa-normalized pressure of a call to `calculate` (line 95 of
`QNH.js`), as a real number. -/
def hPaValue (rawValue : JSNum) (inputUnit : String) : ℝ :=
  (if inputUnit = "inHg" then rawValue.mulPos INHG_TO_HPA else rawValue).toReal

/-- The unit-converted (not yet rounded) correction value of a call to
`calculate`, following lines 134–147 of `QNH.js`. -/
def convertedCorrection (rawValue : JSNum) (inputUnit outputUnit : String) : ℝ :=
  let cf := correctionInFeet (hPaValue rawValue inputUnit)
  if outputUnit = "FL" then cf / 100
  else if outputUnit = "feet" then cf
  else cf * FEET_TO_METERS

/-- The pressure (hPa) whose exact barometric correction is ½ ft: the value
`1013.25 · (1 + 1/(2K))^(g/(Rs·L))` with `K = T0/L/0.3048`, which inverts the
barometric formula at correction ½. -/
def pHalf : ℝ :=
  STANDARD_PRESSURE_HPA *
    (1 + 1 / (2 * (T0 / L / FEET_TO_METERS))) ^ (g / (Rs * L))

end QNH

/-! ## Lemmas and claim theorems -/

namespace Vicenty

/-- On the diagonal call `calculateDistance lat lon lat lon` the two
reduced-latitude pairs coincide. -/
lemma mkInvEnv_diag_sin (lat lon : ℝ) :
    (mkInvEnv lat lon lat lon).sinU1 = (mkInvEnv lat lon lat lon).sinU2 := rfl

lemma mkInvEnv_diag_cos (lat lon : ℝ) :
    (mkInvEnv lat lon lat lon).cosU1 = (mkInvEnv lat lon lat lon).cosU2 := rfl

lemma mkInvEnv_diag_L (lat lon : ℝ) : (mkInvEnv lat lon lat lon).L = 0 := by
  simp [mkInvEnv]

/-- With equal endpoints the first body execution hits `sinSigma = 0`. -/
lemma invBody_diag (e : InvEnv) (h1 : e.sinU1 = e.sinU2) (h2 : e.cosU1 = e.cosU2) :
    invBody e 0 = none := by
  simp only [invBody]
  rw [Real.sin_zero, Real.cos_zero]
  have hz : (e.cosU2 * 0) * (e.cosU2 * 0) +
      (e.cosU1 * e.sinU2 - e.sinU1 * e.cosU2 * 1) *
      (e.cosU1 * e.sinU2 - e.sinU1 * e.cosU2 * 1) = 0 := by
    rw [h1, h2]; ring
  rw [hz, Real.sqrt_zero, if_pos rfl]

/-- The full diagonal evaluation: an immediately coincident result. -/
lemma calculateDistance_same (lat lon : ℝ) :
    calculateDistance lat lon lat lon = .ok ⟨0, 0, true⟩ := by
  have hb : invBody (mkInvEnv lat lon lat lon) 0 = none :=
    invBody_diag _ (mkInvEnv_diag_sin lat lon) (mkInvEnv_diag_cos lat lon)
  simp only [calculateDistance]
  rw [mkInvEnv_diag_L, show (100 : ℕ) = 99 + 1 from rfl, invLoop, hb]

lemma invLoop_diag_first (lat lon : ℝ) :
    (invLoop (mkInvEnv lat lon lat lon) 1 (mkInvEnv lat lon lat lon).L).1 =
      .coincident := by
  have hb : invBody (mkInvEnv lat lon lat lon) 0 = none :=
    invBody_diag _ (mkInvEnv_diag_sin lat lon) (mkInvEnv_diag_cos lat lon)
  rw [mkInvEnv_diag_L, show (1 : ℕ) = 0 + 1 from rfl, invLoop, hb]

/-- Stepping the iterate sequence once is the same as starting it one body
later. -/
lemma invIter_shift (e : InvEnv) (lam0 : ℝ) (v : InvVars)
    (hb : invBody e lam0 = some v) :
    ∀ k, invIter e lam0 (k + 1) = invIter e v.lambdaNew k := by
  intro k
  induction k with
  | zero => simp [invIter, hb]
  | succ j ih =>
    have h1 : invIter e lam0 (j + 1 + 1) =
        match invBody e (invIter e lam0 (j + 1)) with
        | none => invIter e lam0 (j + 1)
        | some w => w.lambdaNew := rfl
    have h2 : invIter e v.lambdaNew (j + 1) =
        match invBody e (invIter e v.lambdaNew j) with
        | none => invIter e v.lambdaNew j
        | some w => w.lambdaNew := rfl
    rw [h1, h2, ih]

/-- The `calculateDistance` loop exhausts its budget iff every one of the
`fuel` body executions ran to the λ update (no coincidence exit) and failed
the convergence test. -/
lemma invLoop_exhausted_iff (e : InvEnv) :
    ∀ (fuel : ℕ) (lam : ℝ),
      (invLoop e fuel lam).1 = .exhausted ↔
        ∀ k < fuel, ∃ v, invBody e (invIter e lam k) = some v ∧
          1e-12 < |v.lambdaNew - invIter e lam k| := by
  intro fuel
  induction fuel with
  | zero =>
    intro lam
    constructor
    · intro _ k hk
      exact absurd hk (Nat.not_lt_zero k)
    · intro _
      rfl
  | succ n ih =>
    intro lam
    cases hb : invBody e lam with
    | none =>
      simp only [invLoop, hb]
      constructor
      · intro hcontra
        exact absurd hcontra (by simp)
      · intro hR
        obtain ⟨v, hv, -⟩ := hR 0 (Nat.succ_pos n)
        rw [show invIter e lam 0 = lam from rfl, hb] at hv
        exact absurd hv (by simp)
    | some v =>
      by_cases hgt : 1e-12 < |v.lambdaNew - lam|
      · simp only [invLoop, hb, if_pos hgt]
        rw [ih v.lambdaNew]
        constructor
        · intro hL k hk
          cases k with
          | zero =>
            exact ⟨v, by rw [show invIter e lam 0 = lam from rfl]; exact hb,
              by rw [show invIter e lam 0 = lam from rfl]; exact hgt⟩
          | succ j =>
            rw [invIter_shift e lam v hb j]
            exact hL j (by omega)
        · intro hR k hk
          have := hR (k + 1) (by omega)
          rwa [invIter_shift e lam v hb k] at this
      · simp only [invLoop, hb, if_neg hgt]
        constructor
        · intro hcontra
          exact absurd hcontra (by simp)
        · intro hR
          obtain ⟨w, hw, hwgt⟩ := hR 0 (Nat.succ_pos n)
          rw [show invIter e lam 0 = lam from rfl] at hw hwgt
          rw [hb] at hw
          have hv : v = w := by injection hw
          rw [← hv] at hwgt
          exact absurd hwgt hgt

/-- `calculateDistance` raises precisely when its loop exhausts the budget. -/
lemma calculateDistance_error_iff (lat1 lon1 lat2 lon2 : ℝ) :
    calculateDistance lat1 lon1 lat2 lon2 = .error .convergenceError ↔
      (invLoop (mkInvEnv lat1 lon1 lat2 lon2) 100
        (mkInvEnv lat1 lon1 lat2 lon2).L).1 = .exhausted := by
  simp only [calculateDistance]
  cases h : (invLoop (mkInvEnv lat1 lon1 lat2 lon2) 100
      (mkInvEnv lat1 lon1 lat2 lon2).L).1 <;> simp

/-- Stepping the σ iterate sequence once is starting it one body later. -/
lemma dirIter_shift (d : DirEnv) (sigma0 : ℝ) :
    ∀ k, dirIter d sigma0 (k + 1) =
      dirIter d (d.sOverbA + (dirBody d sigma0).deltaSigma) k := by
  intro k
  induction k with
  | zero => rfl
  | succ j ih =>
    have h1 : dirIter d sigma0 (j + 1 + 1) =
        d.sOverbA + (dirBody d (dirIter d sigma0 (j + 1))).deltaSigma := rfl
    have h2 : dirIter d (d.sOverbA + (dirBody d sigma0).deltaSigma) (j + 1) =
        d.sOverbA + (dirBody d
          (dirIter d (d.sOverbA + (dirBody d sigma0).deltaSigma) j)).deltaSigma :=
      rfl
    rw [h1, h2, ih]

/-- The comparison values of the direct loop shift the same way. -/
lemma dirPrev_shift (d : DirEnv) (sigma0 sigmaP0 : ℝ) :
    ∀ k, dirPrev d sigma0 sigmaP0 (k + 1) =
      dirPrev d (d.sOverbA + (dirBody d sigma0).deltaSigma) sigma0 k := by
  intro k
  cases k with
  | zero => rfl
  | succ j =>
    show dirIter d sigma0 (j + 1) = dirIter d _ j
    exact dirIter_shift d sigma0 j

/-- The `calculateDestination` loop exhausts its budget iff each of its
`fuel` convergence tests fails (the first test compares the initial σ against
the sentinel 2π; each later test compares successive iterates). -/
lemma dirLoop_exhausted_iff (d : DirEnv) :
    ∀ (n : ℕ) (sigma sigmaP : ℝ) (last : Option DirVars),
      (dirLoop d (n + 1) sigma sigmaP last).1 = .exhausted ↔
        ∀ k < n + 1,
          1e-12 < |dirIter d sigma k - dirPrev d sigma sigmaP k| := by
  intro n
  induction n with
  | zero =>
    intro sigma sigmaP last
    by_cases hgt : 1e-12 < |sigma - sigmaP|
    · simp only [dirLoop, if_pos hgt]
      constructor
      · intro _ k hk
        interval_cases k
        exact hgt
      · intro _
        trivial
    · simp only [dirLoop, if_neg hgt]
      constructor
      · intro hcontra
        exact absurd hcontra (by simp)
      · intro hR
        exact absurd (hR 0 Nat.one_pos) hgt
  | succ n ih =>
    intro sigma sigmaP last
    by_cases hgt : 1e-12 < |sigma - sigmaP|
    · have hstep : (dirLoop d (n + 1 + 1) sigma sigmaP last).1 =
          (dirLoop d (n + 1) (d.sOverbA + (dirBody d sigma).deltaSigma) sigma
            (some (dirBody d sigma))).1 := by
        simp only [dirLoop, if_pos hgt]
      rw [hstep, ih]
      constructor
      · intro hL k hk
        cases k with
        | zero => exact hgt
        | succ j =>
          rw [dirIter_shift d sigma j, dirPrev_shift d sigma sigmaP j]
          exact hL j (by omega)
      · intro hR k hk
        have := hR (k + 1) (by omega)
        rwa [dirIter_shift d sigma k, dirPrev_shift d sigma sigmaP k] at this
    · simp only [dirLoop, if_neg hgt]
      constructor
      · intro hcontra
        exact absurd hcontra (by simp)
      · intro hR
        exact absurd (hR 0 (Nat.succ_pos _)) hgt

/-- `calculateDestination` raises precisely when its loop exhausts the
budget. -/
lemma calculateDestination_error_iff (lat1 lon1 s brg : ℝ) :
    calculateDestination lat1 lon1 s brg = .error .convergenceError ↔
      (dirLoop (mkDirEnv lat1 lon1 s brg) 100
        (mkDirEnv lat1 lon1 s brg).sOverbA (2 * Real.pi) none).1 =
          .exhausted := by
  simp only [calculateDestination]
  cases h : (dirLoop (mkDirEnv lat1 lon1 s brg) 100
      (mkDirEnv lat1 lon1 s brg).sOverbA (2 * Real.pi) none).1 <;> simp

/-- The body count of the direct loop is at most fuel − 1. -/
lemma dirLoop_count_le (d : DirEnv) :
    ∀ (fuel : ℕ) (sigma sigmaP : ℝ) (last : Option DirVars),
      (dirLoop d (fuel + 1) sigma sigmaP last).2 ≤ fuel := by
  intro fuel
  induction fuel with
  | zero =>
    intro sigma sigmaP last
    by_cases hgt : 1e-12 < |sigma - sigmaP| <;>
      simp [dirLoop, hgt]
  | succ n ih =>
    intro sigma sigmaP last
    by_cases hgt : 1e-12 < |sigma - sigmaP|
    · simp only [dirLoop, if_pos hgt]
      have := ih (d.sOverbA + (dirBody d sigma).deltaSigma) sigma
        (some (dirBody d sigma))
      omega
    · simp [dirLoop, if_neg hgt]

/-- The body count of the inverse loop never exceeds the fuel. -/
lemma invLoop_count_le (e : InvEnv) :
    ∀ (fuel : ℕ) (lam : ℝ), (invLoop e fuel lam).2 ≤ fuel := by
  intro fuel
  induction fuel with
  | zero => intro lam; simp [invLoop]
  | succ n ih =>
    intro lam
    cases hb : invBody e lam with
    | none => simp [invLoop, hb]
    | some v =>
      by_cases hgt : 1e-12 < |v.lambdaNew - lam|
      · simp only [invLoop, hb, if_pos hgt]
        have := ih v.lambdaNew
        omega
      · simp [invLoop, hb, if_neg hgt]

end Vicenty

namespace QNH

/-- The hPa normalization of a finite input. -/
lemma hPa_fin (x : ℝ) (u : String) :
    (if u = "inHg" then (JSNum.fin x).mulPos INHG_TO_HPA else .fin x) =
      .fin (hPaValue (.fin x) u) := by
  by_cases hu : u = "inHg" <;> simp [hPaValue, JSNum.mulPos, JSNum.toReal, hu]

/-- `hPaValue` on a finite input, as a real formula. -/
lemma hPaValue_fin (x : ℝ) (u : String) :
    hPaValue (.fin x) u = if u = "inHg" then x * INHG_TO_HPA else x := by
  by_cases hu : u = "inHg" <;> simp [hPaValue, JSNum.mulPos, JSNum.toReal, hu]

lemma string_hPa_ne_inHg : ("hPa" : String) ≠ "inHg" := by decide

lemma K_pos : (0 : ℝ) < T0 / L / FEET_TO_METERS := by
  norm_num [T0, L, FEET_TO_METERS]

/-- The exact barometric correction of the pressure `pHalf` is ½ ft. -/
lemma correctionInFeet_pHalf : correctionInFeet pHalf = 1 / 2 := by
  have hK := K_pos
  have hbase : (0 : ℝ) ≤ 1 + 1 / (2 * (T0 / L / FEET_TO_METERS)) := by positivity
  have hP0 : STANDARD_PRESSURE_HPA ≠ 0 := by norm_num [STANDARD_PRESSURE_HPA]
  unfold correctionInFeet pHalf
  rw [mul_div_cancel_left₀ _ hP0, ← Real.rpow_mul hbase]
  have hEr : g / (Rs * L) * (Rs * L / g) = 1 := by norm_num [g, Rs, L]
  rw [hEr, Real.rpow_one]
  have hT0 : T0 ≠ 0 := by norm_num [T0]
  have hL : L ≠ 0 := by norm_num [L]
  have hF : FEET_TO_METERS ≠ 0 := by norm_num [FEET_TO_METERS]
  have hKne : T0 / L / FEET_TO_METERS ≠ 0 := ne_of_gt hK
  field_simp
  ring

/-- Bounds locating `pHalf` strictly inside the warning-free band. -/
lemma pHalf_bounds : 1013.25 ≤ pHalf ∧ pHalf ≤ 1015 := by
  have hK := K_pos
  have hbase1 : (1 : ℝ) ≤ 1 + 1 / (2 * (T0 / L / FEET_TO_METERS)) := by
    have : (0 : ℝ) < 1 / (2 * (T0 / L / FEET_TO_METERS)) := by positivity
    linarith
  have hE0 : (0 : ℝ) ≤ g / (Rs * L) := by norm_num [g, Rs, L]
  have hE6 : g / (Rs * L) ≤ 6 := by norm_num [g, Rs, L]
  have hlow : (1 : ℝ) ≤
      (1 + 1 / (2 * (T0 / L / FEET_TO_METERS))) ^ (g / (Rs * L)) := by
    have := Real.rpow_le_rpow_of_exponent_le hbase1 hE0
    rwa [Real.rpow_zero] at this
  have hhigh : (1 + 1 / (2 * (T0 / L / FEET_TO_METERS))) ^ (g / (Rs * L)) ≤
      (1 + 1 / (2 * (T0 / L / FEET_TO_METERS))) ^ (6 : ℝ) :=
    Real.rpow_le_rpow_of_exponent_le hbase1 hE6
  have hcast : ((1 : ℝ) + 1 / (2 * (T0 / L / FEET_TO_METERS))) ^ (6 : ℝ) =
      (1 + 1 / (2 * (T0 / L / FEET_TO_METERS))) ^ (6 : ℕ) := by
    rw [show ((6 : ℝ)) = ((6 : ℕ) : ℝ) by norm_num, Real.rpow_natCast]
  have hnum : ((1 : ℝ) + 1 / (2 * (T0 / L / FEET_TO_METERS))) ^ (6 : ℕ) ≤
      1001 / 1000 := by
    norm_num [T0, L, FEET_TO_METERS]
  have hy : (1 + 1 / (2 * (T0 / L / FEET_TO_METERS))) ^ (g / (Rs * L)) ≤
      1001 / 1000 := by
    calc (1 + 1 / (2 * (T0 / L / FEET_TO_METERS))) ^ (g / (Rs * L)) ≤
        (1 + 1 / (2 * (T0 / L / FEET_TO_METERS))) ^ (6 : ℝ) := hhigh
      _ = (1 + 1 / (2 * (T0 / L / FEET_TO_METERS))) ^ (6 : ℕ) := hcast
      _ ≤ 1001 / 1000 := hnum
  unfold pHalf STANDARD_PRESSURE_HPA
  constructor
  · have := mul_le_mul_of_nonneg_left hlow (by norm_num : (0 : ℝ) ≤ 1013.25)
    linarith
  · calc (1013.25 : ℝ) *
        ((1 + 1 / (2 * (T0 / L / FEET_TO_METERS))) ^ (g / (Rs * L))) ≤
          1013.25 * (1001 / 1000) :=
        mul_le_mul_of_nonneg_left hy (by norm_num)
      _ ≤ 1015 := by norm_num

/-- `hPaValue` of a finite value given in hectopascals. -/
lemma hPaValue_hPa (x : ℝ) : hPaValue (.fin x) "hPa" = x := by
  rw [hPaValue_fin, if_neg string_hPa_ne_inHg]

end QNH

/-- `Math.atan2` never exceeds π. -/
lemma jsAtan2_le_pi (y x : ℝ) : jsAtan2 y x ≤ Real.pi := by
  have hpi := Real.pi_pos
  unfold jsAtan2
  split_ifs with hx hx' hy hy' hy''
  · linarith [Real.arctan_lt_pi_div_two (y / x)]
  · have hdiv : y / x ≤ 0 := div_nonpos_of_nonneg_of_nonpos hy hx'.le
    have : Real.arctan (y / x) ≤ 0 := by
      have := Real.arctan_strictMono.monotone hdiv
      rwa [Real.arctan_zero] at this
    linarith
  · linarith [Real.arctan_lt_pi_div_two (y / x)]
  · linarith
  · linarith
  · linarith

/-- `Math.atan2` stays above −π. -/
lemma neg_pi_lt_jsAtan2 (y x : ℝ) : -Real.pi < jsAtan2 y x := by
  have hpi := Real.pi_pos
  unfold jsAtan2
  split_ifs with hx hx' hy hy' hy''
  · linarith [Real.neg_pi_div_two_lt_arctan (y / x)]
  · linarith [Real.neg_pi_div_two_lt_arctan (y / x)]
  · have hy2 : y < 0 := lt_of_not_le hy
    have hdiv : 0 < y / x := div_pos_of_neg_of_neg hy2 hx'
    have : 0 < Real.arctan (y / x) := by
      have := Real.arctan_strictMono hdiv
      rwa [Real.arctan_zero] at this
    linarith
  · linarith
  · linarith
  · linarith

/-- `Math.atan2` of a point with positive second coordinate is positive. -/
lemma jsAtan2_pos (y x : ℝ) (hy : 0 < y) : 0 < jsAtan2 y x := by
  have hpi := Real.pi_pos
  unfold jsAtan2
  split_ifs with hx hx' hy0
  · have hdiv : 0 < y / x := div_pos hy hx
    have := Real.arctan_strictMono hdiv
    rwa [Real.arctan_zero] at this
  · linarith [Real.neg_pi_div_two_lt_arctan (y / x)]
  · exact absurd hy.le hy0
  · linarith

/-- On the unit circle with positive ordinate, `Math.atan2` recovers the
angle: its sine is the given `y`. -/
lemma sin_jsAtan2 (y x : ℝ) (h : y ^ 2 + x ^ 2 = 1) (hy : 0 < y) :
    Real.sin (jsAtan2 y x) = y := by
  unfold jsAtan2
  split_ifs with hx hx' hy0
  · have hxne : x ≠ 0 := ne_of_gt hx
    rw [Real.sin_arctan]
    have h1 : 1 + (y / x) ^ 2 = (1 / x) ^ 2 := by
      field_simp
      linear_combination h
    rw [h1, Real.sqrt_sq (by positivity)]
    field_simp
  · have hxne : x ≠ 0 := ne_of_lt hx'
    rw [Real.sin_add_pi, Real.sin_arctan]
    have h1 : 1 + (y / x) ^ 2 = (1 / x) ^ 2 := by
      field_simp
      linear_combination h
    rw [h1, Real.sqrt_sq_eq_abs, abs_of_neg (by
      exact one_div_neg.mpr hx')]
    field_simp
  · exact absurd hy.le hy0
  · have hy1' : y = 1 := by
      have hx0 : x = 0 := by
        by_contra hx0
        rcases lt_or_gt_of_ne hx0 with hlt | hgt
        · exact hx' hlt
        · exact hx hgt
      rw [hx0] at h
      nlinarith
    rw [hy1', Real.sin_pi_div_two]

/-- The JS remainder of a nonnegative dividend by a positive divisor lies in
`[0, b)`. -/
lemma jsRem_nonneg_lt (a b : ℝ) (ha : 0 ≤ a) (hb : 0 < b) :
    0 ≤ jsRem a b ∧ jsRem a b < b := by
  unfold jsRem jsTrunc
  rw [if_pos (div_nonneg ha hb.le)]
  have h1 : (⌊a / b⌋ : ℝ) ≤ a / b := Int.floor_le _
  have h2 : a / b < ⌊a / b⌋ + 1 := Int.lt_floor_add_one _
  have hba : b * (a / b) = a := by field_simp
  constructor
  · have := mul_le_mul_of_nonneg_left h1 hb.le
    rw [hba] at this
    linarith
  · have := mul_lt_mul_of_pos_left h2 hb
    rw [hba] at this
    linarith

/-- JS rounding of `-x` against that of `x`, away from the half-odd-integer
grid: the two are exact negations. -/
lemma jsRound_neg_of_not_half (x : ℝ) (h : ¬ ∃ k : ℤ, x = k + 1 / 2) :
    jsRound (-x) = -jsRound x := by
  unfold jsRound
  obtain ⟨t, ht⟩ : ∃ t : ℝ, t = x + 1 / 2 := ⟨x + 1 / 2, rfl⟩
  rw [show -x + 1 / 2 = -t + 1 by rw [ht]; ring, ← ht]
  have hfr : Int.fract t ≠ 0 := by
    intro h0
    apply h
    have hfl : (⌊t⌋ : ℝ) = t := by
      have h2 := Int.floor_add_fract t
      rw [h0, add_zero] at h2
      exact h2
    refine ⟨⌊t⌋ - 1, ?_⟩
    push_cast
    linarith [hfl]
  have hfr0 : 0 < Int.fract t := lt_of_le_of_ne (Int.fract_nonneg t) (Ne.symm hfr)
  have hfr1 : Int.fract t < 1 := Int.fract_lt_one t
  have hfloor : (⌊t⌋ : ℝ) + Int.fract t = t := Int.floor_add_fract t
  have hneg : ⌊-t⌋ = -⌊t⌋ - 1 := by
    rw [Int.floor_eq_iff]
    constructor
    · push_cast; linarith
    · push_cast; linarith
  rw [Int.floor_add_one, hneg]
  omega

/-- JS rounding of `-x` against that of `x` on the half-odd-integer grid: the
negation is off by one. -/
lemma jsRound_neg_of_half (x : ℝ) (k : ℤ) (h : x = k + 1 / 2) :
    jsRound (-x) = -jsRound x + 1 := by
  subst h
  unfold jsRound
  rw [show ((k : ℝ) + 1 / 2 + 1 / 2) = ((k + 1 : ℤ) : ℝ) by push_cast; ring,
    show (-((k : ℝ) + 1 / 2) + 1 / 2) = ((-k : ℤ) : ℝ) by push_cast; ring,
    Int.floor_intCast, Int.floor_intCast]
  omega

/-- The rounded pair `(jsRound v, jsRound (-v))` computed by `QNH.calculate`:
negation transfer, with the half-odd-integer exception. -/
lemma jsRound_pair (v : ℝ) (c pa : ℤ) (hc : c = jsRound v)
    (hpa : pa = jsRound (-v)) :
    ((¬ ∃ k : ℤ, v = k + 1 / 2) → pa = -c) ∧
      ((∃ k : ℤ, v = k + 1 / 2) → pa = -c + 1) := by
  constructor
  · intro h
    rw [hpa, hc, jsRound_neg_of_not_half v h]
  · rintro ⟨k, hk⟩
    rw [hpa, hc, jsRound_neg_of_half v k hk]

namespace Vicenty

/-- The reduced-latitude construction lands on the unit circle with a
positive cosine. -/
lemma reduced_latitude_unit (t : ℝ) :
    (t * (1 / Real.sqrt (1 + t * t))) ^ 2 + (1 / Real.sqrt (1 + t * t)) ^ 2 = 1
      ∧ 0 < 1 / Real.sqrt (1 + t * t) := by
  have hS : (0 : ℝ) < 1 + t * t := by nlinarith [mul_self_nonneg t]
  have hsq : 0 < Real.sqrt (1 + t * t) := Real.sqrt_pos.mpr hS
  have hval : Real.sqrt (1 + t * t) ^ 2 = 1 + t * t := Real.sq_sqrt hS.le
  have hne : (1 : ℝ) + t * t ≠ 0 := ne_of_gt hS
  have hc2 : (1 / Real.sqrt (1 + t * t)) ^ 2 = 1 / (1 + t * t) := by
    rw [div_pow, one_pow, hval]
  constructor
  · calc (t * (1 / Real.sqrt (1 + t * t))) ^ 2 +
        (1 / Real.sqrt (1 + t * t)) ^ 2
        = (t ^ 2 + 1) * (1 / Real.sqrt (1 + t * t)) ^ 2 := by ring
      _ = (t ^ 2 + 1) * (1 / (1 + t * t)) := by rw [hc2]
      _ = 1 := by
          field_simp
          ring
  · positivity

lemma mkInvEnv_unit₁ (lat1 lon1 lat2 lon2 : ℝ) :
    (mkInvEnv lat1 lon1 lat2 lon2).sinU1 ^ 2 +
        (mkInvEnv lat1 lon1 lat2 lon2).cosU1 ^ 2 = 1 ∧
      0 < (mkInvEnv lat1 lon1 lat2 lon2).cosU1 := by
  simp only [mkInvEnv]
  exact reduced_latitude_unit _

lemma mkInvEnv_unit₂ (lat1 lon1 lat2 lon2 : ℝ) :
    (mkInvEnv lat1 lon1 lat2 lon2).sinU2 ^ 2 +
        (mkInvEnv lat1 lon1 lat2 lon2).cosU2 ^ 2 = 1 ∧
      0 < (mkInvEnv lat1 lon1 lat2 lon2).cosU2 := by
  simp only [mkInvEnv]
  exact reduced_latitude_unit _

/-- The two spherical-trigonometric factorizations behind the bound
`|cos 2σm| ≤ 1`: with `E = sin²σ` and `D = E − (c1·c2·sinλ)²`, the quantities
`(1 ∓ cos2σm)·D` factor as `(1 ∓ cosσ)` times a square. -/
lemma c2m_key (s1 c1 s2 c2 sl cl : ℝ)
    (h1 : s1 ^ 2 + c1 ^ 2 = 1) (h3 : s2 ^ 2 + c2 ^ 2 = 1)
    (hP3 : sl ^ 2 + cl ^ 2 = 1) :
    ((1 - (s1 * s2 + c1 * c2 * cl)) *
        (((c2 * sl) * (c2 * sl) +
          (c1 * s2 - s1 * c2 * cl) * (c1 * s2 - s1 * c2 * cl)) -
            (c1 * c2 * sl) ^ 2) +
      2 * s1 * s2 * ((c2 * sl) * (c2 * sl) +
          (c1 * s2 - s1 * c2 * cl) * (c1 * s2 - s1 * c2 * cl)) =
      (1 - (s1 * s2 + c1 * c2 * cl)) * (s1 + s2) ^ 2) ∧
    ((1 + (s1 * s2 + c1 * c2 * cl)) *
        (((c2 * sl) * (c2 * sl) +
          (c1 * s2 - s1 * c2 * cl) * (c1 * s2 - s1 * c2 * cl)) -
            (c1 * c2 * sl) ^ 2) -
      2 * s1 * s2 * ((c2 * sl) * (c2 * sl) +
          (c1 * s2 - s1 * c2 * cl) * (c1 * s2 - s1 * c2 * cl)) =
      (1 + (s1 * s2 + c1 * c2 * cl)) * (s1 - s2) ^ 2) := by
  constructor
  · linear_combination
      ((1 - (s1 * s2 + c1 * c2 * cl)) * (s2 ^ 2 - c2 ^ 2 * sl ^ 2) +
        2 * s1 * s2 * (s2 ^ 2 + c2 ^ 2 * cl ^ 2)) * h1 +
      ((1 - (s1 * s2 + c1 * c2 * cl)) * s1 ^ 2 + 2 * s1 * s2) * h3 +
      ((1 - (s1 * s2 + c1 * c2 * cl)) * s1 ^ 2 * c2 ^ 2 +
        2 * s1 * s2 * c2 ^ 2) * hP3
  · linear_combination
      ((1 + (s1 * s2 + c1 * c2 * cl)) * (s2 ^ 2 - c2 ^ 2 * sl ^ 2) -
        2 * s1 * s2 * (s2 ^ 2 + c2 ^ 2 * cl ^ 2)) * h1 +
      ((1 + (s1 * s2 + c1 * c2 * cl)) * s1 ^ 2 - 2 * s1 * s2) * h3 +
      ((1 + (s1 * s2 + c1 * c2 * cl)) * s1 ^ 2 * c2 ^ 2 -
        2 * s1 * s2 * c2 ^ 2) * hP3

set_option maxHeartbeats 1600000 in
/-- The quantities of one inverse-loop body execution, abstractly: with both
reduced latitudes on the unit circle, the computed `(sinσ, cosσ)` pair is on
the unit circle with `sinσ > 0`, `cos²α` lies in `[0, 1]`, and the
`cos 2σm` value (including its NaN guard and the division-by-zero case) lies
in `[-1, 1]`. -/
lemma body_vars_props (s1 c1 s2 c2 sl cl ss cs sa q m : ℝ)
    (h1 : s1 ^ 2 + c1 ^ 2 = 1) (h3 : s2 ^ 2 + c2 ^ 2 = 1)
    (hP3 : sl ^ 2 + cl ^ 2 = 1)
    (hss : ss = Real.sqrt ((c2 * sl) * (c2 * sl) +
      (c1 * s2 - s1 * c2 * cl) * (c1 * s2 - s1 * c2 * cl)))
    (hss0 : ¬ ss = 0)
    (hcs : cs = s1 * s2 + c1 * c2 * cl)
    (hsa : sa = c1 * c2 * sl / ss)
    (hq : q = 1 - sa * sa)
    (hm : m = if q = 0 ∧ s1 * s2 = 0 then 0 else cs - 2 * s1 * s2 / q) :
    0 < ss ∧ ss ^ 2 + cs ^ 2 = 1 ∧ 0 ≤ q ∧ q ≤ 1 ∧ -1 ≤ m ∧ m ≤ 1 := by
  have hE0 : (0 : ℝ) ≤ (c2 * sl) * (c2 * sl) +
      (c1 * s2 - s1 * c2 * cl) * (c1 * s2 - s1 * c2 * cl) :=
    add_nonneg (mul_self_nonneg _) (mul_self_nonneg _)
  have hsspos : 0 < ss := by
    have h' : ss ≠ 0 := hss0
    rw [hss] at h' ⊢
    exact lt_of_le_of_ne (Real.sqrt_nonneg _) (Ne.symm h')
  have hss2 : ss ^ 2 = (c2 * sl) * (c2 * sl) +
      (c1 * s2 - s1 * c2 * cl) * (c1 * s2 - s1 * c2 * cl) := by
    rw [hss]
    exact Real.sq_sqrt hE0
  have hpy : ss ^ 2 + cs ^ 2 = 1 := by
    rw [hss2, hcs]
    linear_combination (s2 ^ 2 + c2 ^ 2 * cl ^ 2) * h1 + h3 + c2 ^ 2 * hP3
  have hcs2 : cs ^ 2 ≤ 1 := by nlinarith [sq_nonneg ss]
  have hcsbd : -1 ≤ cs ∧ cs ≤ 1 := by
    constructor <;> nlinarith [hcs2]
  have hnum : (c1 * c2 * sl) ^ 2 ≤ ss ^ 2 := by
    rw [hss2]
    nlinarith [h1, sq_nonneg (s1 * c2 * sl), sq_nonneg (c2 * sl),
      sq_nonneg (c1 * s2 - s1 * c2 * cl)]
  have hsa2 : sa ^ 2 ≤ 1 := by
    have hsaval : sa ^ 2 = (c1 * c2 * sl) ^ 2 / ss ^ 2 := by
      rw [hsa, div_pow]
    rw [hsaval]
    exact (div_le_one (pow_pos hsspos 2)).mpr hnum
  have hq0 : 0 ≤ q := by
    rw [hq]
    nlinarith [hsa2]
  have hq1 : q ≤ 1 := by
    rw [hq]
    nlinarith [sq_nonneg sa]
  refine ⟨hsspos, hpy, hq0, hq1, ?_, ?_⟩ <;> rw [hm] <;> split_ifs with hg
  · norm_num
  · by_cases hqz : q = 0
    · rw [hqz, div_zero, sub_zero]
      exact hcsbd.1
    · have hqpos : 0 < q := lt_of_le_of_ne hq0 (Ne.symm hqz)
      have hqE : q * ss ^ 2 = ss ^ 2 - (c1 * c2 * sl) ^ 2 := by
        rw [hq, hsa]
        field_simp [hss0]
        ring
      have hkey : (1 + (cs - 2 * s1 * s2 / q)) * (q * ss ^ 2) =
          (1 + cs) * (s1 - s2) ^ 2 := by
        have hexp : (1 + (cs - 2 * s1 * s2 / q)) * (q * ss ^ 2) =
            (1 + cs) * (q * ss ^ 2) - 2 * s1 * s2 * ss ^ 2 := by
          field_simp [hqz]
          ring
        rw [hexp, hqE, hss2, hcs]
        exact (c2m_key s1 c1 s2 c2 sl cl h1 h3 hP3).2
      have hrhs : 0 ≤ (1 + cs) * (s1 - s2) ^ 2 :=
        mul_nonneg (by linarith [hcsbd.1]) (sq_nonneg _)
      nlinarith [hkey, hrhs, mul_pos hqpos (pow_pos hsspos 2)]
  · norm_num
  · by_cases hqz : q = 0
    · rw [hqz, div_zero, sub_zero]
      exact hcsbd.2
    · have hqpos : 0 < q := lt_of_le_of_ne hq0 (Ne.symm hqz)
      have hqE : q * ss ^ 2 = ss ^ 2 - (c1 * c2 * sl) ^ 2 := by
        rw [hq, hsa]
        field_simp [hss0]
        ring
      have hkey : (1 - (cs - 2 * s1 * s2 / q)) * (q * ss ^ 2) =
          (1 - cs) * (s1 + s2) ^ 2 := by
        have hexp : (1 - (cs - 2 * s1 * s2 / q)) * (q * ss ^ 2) =
            (1 - cs) * (q * ss ^ 2) + 2 * s1 * s2 * ss ^ 2 := by
          field_simp [hqz]
          ring
        rw [hexp, hqE, hss2, hcs]
        exact (c2m_key s1 c1 s2 c2 sl cl h1 h3 hP3).1
      have hrhs : 0 ≤ (1 - cs) * (s1 + s2) ^ 2 :=
        mul_nonneg (by linarith [hcsbd.2]) (sq_nonneg _)
      nlinarith [hkey, hrhs, mul_pos hqpos (pow_pos hsspos 2)]

/-- The established invariants of the variables left by a completed body
execution of the `calculateDistance` loop. -/
lemma invBody_props (e : InvEnv)
    (h1 : e.sinU1 ^ 2 + e.cosU1 ^ 2 = 1) (h3 : e.sinU2 ^ 2 + e.cosU2 ^ 2 = 1)
    (lam : ℝ) (v : InvVars) (hb : invBody e lam = some v) :
    0 < v.sinSigma ∧ v.sinSigma ^ 2 + v.cosSigma ^ 2 = 1 ∧
      0 ≤ v.cosSqAlpha ∧ v.cosSqAlpha ≤ 1 ∧
      -1 ≤ v.cos2SigmaM ∧ v.cos2SigmaM ≤ 1 ∧
      v.sigma = jsAtan2 v.sinSigma v.cosSigma := by
  simp only [invBody] at hb
  split at hb
  next h0 => exact absurd hb (by simp)
  next h0 =>
    injection hb with hv
    subst hv
    obtain ⟨g1, g2, g3, g4, g5, g6⟩ :=
      body_vars_props e.sinU1 e.cosU1 e.sinU2 e.cosU2
        (Real.sin lam) (Real.cos lam) _ _ _ _ _
        h1 h3 (Real.sin_sq_add_cos_sq lam) rfl h0 rfl rfl rfl rfl
    exact ⟨g1, g2, g3, g4, g5, g6, rfl⟩

/-- Every set of loop variables the loop can exit with in the `converged`
state was produced by some body execution. -/
lemma invLoop_converged_body (e : InvEnv) :
    ∀ (fuel : ℕ) (lam : ℝ) (v : InvVars),
      (invLoop e fuel lam).1 = .converged v →
        ∃ lam0, invBody e lam0 = some v := by
  intro fuel
  induction fuel with
  | zero =>
    intro lam v h
    exact absurd h (by simp [invLoop])
  | succ n ih =>
    intro lam v h
    cases hb : invBody e lam with
    | none =>
      simp only [invLoop, hb] at h
      exact absurd h (by simp)
    | some w =>
      by_cases hgt : 1e-12 < |w.lambdaNew - lam|
      · simp only [invLoop, hb, if_pos hgt] at h
        exact ih w.lambdaNew v h
      · simp only [invLoop, hb, if_neg hgt] at h
        have hwv : w = v := by
          simpa using h
        exact ⟨lam, hwv ▸ hb⟩

/-- Bounds on `u²` as computed by `invFinish` from a `cos²α` in `[0, 1]`. -/
lemma uSq_bounds (q : ℝ) (hq0 : 0 ≤ q) (hq1 : q ≤ 1) :
    0 ≤ q * (WGS84_a * WGS84_a - WGS84_b * WGS84_b) / (WGS84_b * WGS84_b) ∧
      q * (WGS84_a * WGS84_a - WGS84_b * WGS84_b) / (WGS84_b * WGS84_b) ≤
        7 / 1000 := by
  have hD : (0 : ℝ) ≤ WGS84_a * WGS84_a - WGS84_b * WGS84_b := by
    norm_num [WGS84_a, WGS84_b]
  have hbb : (0 : ℝ) < WGS84_b * WGS84_b := by norm_num [WGS84_b]
  constructor
  · exact div_nonneg (mul_nonneg hq0 hD) hbb.le
  · have h1 : q * (WGS84_a * WGS84_a - WGS84_b * WGS84_b) ≤
        1 * (WGS84_a * WGS84_a - WGS84_b * WGS84_b) :=
      mul_le_mul_of_nonneg_right hq1 hD
    have h2 : q * (WGS84_a * WGS84_a - WGS84_b * WGS84_b) /
        (WGS84_b * WGS84_b) ≤
        1 * (WGS84_a * WGS84_a - WGS84_b * WGS84_b) / (WGS84_b * WGS84_b) :=
      (div_le_div_iff_of_pos_right hbb).mpr h1
    have h3 : (1 : ℝ) * (WGS84_a * WGS84_a - WGS84_b * WGS84_b) /
        (WGS84_b * WGS84_b) ≤ 7 / 1000 := by
      norm_num [WGS84_a, WGS84_b]
    linarith

set_option maxHeartbeats 3200000 in
/-- The distance computed by `invFinish` from variables satisfying the body
invariants is nonnegative: the Δσ correction (with `|cos2σm| ≤ 1`,
`B ≤ 0.002`) is strictly smaller than σ itself, because `sinσ = sin σ < σ`. -/
lemma finish_dist_nonneg (ss cs m sg uSq A B ds : ℝ)
    (hss0 : 0 < ss) (hpy : ss ^ 2 + cs ^ 2 = 1)
    (hm1 : -1 ≤ m) (hm2 : m ≤ 1)
    (hu0 : 0 ≤ uSq) (hu1 : uSq ≤ 7 / 1000)
    (hA : A = 1 + uSq / 16384 * (4096 + uSq * (-768 + uSq * (320 - 175 * uSq))))
    (hB : B = uSq / 1024 * (256 + uSq * (-128 + uSq * (74 - 47 * uSq))))
    (hds : ds = B * ss * (m + B / 4 * (cs * (-1 + 2 * m * m) -
      B / 6 * m * (-3 + 4 * ss * ss) * (-3 + 4 * m * m))))
    (hsg : sg = jsAtan2 ss cs) :
    0 ≤ WGS84_b * A * (sg - ds) := by
  have hss1 : ss ≤ 1 := by nlinarith [sq_nonneg cs]
  have hcs1 : -1 ≤ cs := by nlinarith [sq_nonneg ss]
  have hcs2 : cs ≤ 1 := by nlinarith [sq_nonneg ss]
  -- the B coefficient is tiny
  have hx2a : 0 ≤ uSq * (74 - 47 * uSq) :=
    mul_nonneg hu0 (by nlinarith)
  have hx2b : uSq * (74 - 47 * uSq) ≤ 1 := by nlinarith [sq_nonneg uSq]
  have hx4a : 0 ≤ uSq * ((-128 + uSq * (74 - 47 * uSq)) + 128) :=
    mul_nonneg hu0 (by linarith)
  have hx4b : 0 ≤ uSq * (-(-128 + uSq * (74 - 47 * uSq))) :=
    mul_nonneg hu0 (by linarith)
  have hB0 : 0 ≤ B := by
    rw [hB]
    have hinner : (0 : ℝ) ≤ 256 + uSq * (-128 + uSq * (74 - 47 * uSq)) := by
      nlinarith [hx4a, hu1]
    exact mul_nonneg (div_nonneg hu0 (by norm_num)) hinner
  have hB2 : B ≤ 2 / 1000 := by
    rw [hB]
    have hinner : 256 + uSq * (-128 + uSq * (74 - 47 * uSq)) ≤ 256 := by
      nlinarith [hx4b]
    have h5 : uSq / 1024 * (256 + uSq * (-128 + uSq * (74 - 47 * uSq))) ≤
        uSq / 1024 * 256 := by
      apply mul_le_mul_of_nonneg_left hinner
      positivity
    nlinarith [h5, hu1]
  -- the A coefficient is at least 1
  have hA1 : 1 ≤ A := by
    rw [hA]
    have hy1 : 0 ≤ uSq * (320 - 175 * uSq) := mul_nonneg hu0 (by nlinarith)
    have hy2 : uSq * (320 - 175 * uSq) ≤ 3 := by nlinarith [sq_nonneg uSq]
    have hy3 : 0 ≤ uSq * ((-768 + uSq * (320 - 175 * uSq)) + 768) :=
      mul_nonneg hu0 (by linarith)
    have hy4 : (0 : ℝ) ≤ 4096 + uSq * (-768 + uSq * (320 - 175 * uSq)) := by
      nlinarith [hy3, hu1]
    nlinarith [mul_nonneg (div_nonneg hu0 (by norm_num : (0:ℝ) ≤ 16384)) hy4]
  -- σ itself is a genuine angle above its sine
  have hsgpos : 0 < sg := by
    rw [hsg]
    exact jsAtan2_pos ss cs hss0
  have hsin : Real.sin sg = ss := by
    rw [hsg]
    exact sin_jsAtan2 ss cs hpy hss0
  have hsslt : ss < sg := by
    rw [← hsin]
    exact Real.sin_lt hsgpos
  -- interval bounds for the Δσ factors
  have hmm1 : -1 ≤ -1 + 2 * m * m := by nlinarith [sq_nonneg m]
  have hmm2 : -1 + 2 * m * m ≤ 1 := by nlinarith [sq_nonneg m]
  have hp1a : -1 ≤ cs * (-1 + 2 * m * m) := by
    nlinarith [mul_nonneg (by linarith : (0:ℝ) ≤ 1 - cs)
        (by linarith : (0:ℝ) ≤ 1 + (-1 + 2 * m * m)),
      mul_nonneg (by linarith : (0:ℝ) ≤ 1 + cs)
        (by linarith : (0:ℝ) ≤ 1 - (-1 + 2 * m * m))]
  have hp1b : cs * (-1 + 2 * m * m) ≤ 1 := by
    nlinarith [mul_nonneg (by linarith : (0:ℝ) ≤ 1 - cs)
        (by linarith : (0:ℝ) ≤ 1 - (-1 + 2 * m * m)),
      mul_nonneg (by linarith : (0:ℝ) ≤ 1 + cs)
        (by linarith : (0:ℝ) ≤ 1 + (-1 + 2 * m * m))]
  have hf2a : -3 ≤ -3 + 4 * ss * ss := by nlinarith [sq_nonneg ss]
  have hf2b : -3 + 4 * ss * ss ≤ 1 := by nlinarith [hss1, hss0]
  have hf3a : -3 ≤ -3 + 4 * m * m := by nlinarith [sq_nonneg m]
  have hf3b : -3 + 4 * m * m ≤ 1 := by nlinarith [hm1, hm2]
  have hp2a : -3 ≤ m * (-3 + 4 * ss * ss) := by
    nlinarith [mul_nonneg (by linarith : (0:ℝ) ≤ 1 - m)
        (by linarith : (0:ℝ) ≤ (-3 + 4 * ss * ss) + 3),
      mul_nonneg (by linarith : (0:ℝ) ≤ 1 + m)
        (by linarith : (0:ℝ) ≤ 3 - (-3 + 4 * ss * ss))]
  have hp2b : m * (-3 + 4 * ss * ss) ≤ 3 := by
    nlinarith [mul_nonneg (by linarith : (0:ℝ) ≤ 1 - m)
        (by linarith : (0:ℝ) ≤ 3 - (-3 + 4 * ss * ss)),
      mul_nonneg (by linarith : (0:ℝ) ≤ 1 + m)
        (by linarith : (0:ℝ) ≤ (-3 + 4 * ss * ss) + 3)]
  have hp3a : -9 ≤ m * (-3 + 4 * ss * ss) * (-3 + 4 * m * m) := by
    nlinarith [mul_nonneg (by linarith : (0:ℝ) ≤ 3 - m * (-3 + 4 * ss * ss))
        (by linarith : (0:ℝ) ≤ (-3 + 4 * m * m) + 3),
      mul_nonneg (by linarith : (0:ℝ) ≤ 3 + m * (-3 + 4 * ss * ss))
        (by linarith : (0:ℝ) ≤ 3 - (-3 + 4 * m * m))]
  have hp3b : m * (-3 + 4 * ss * ss) * (-3 + 4 * m * m) ≤ 9 := by
    nlinarith [mul_nonneg (by linarith : (0:ℝ) ≤ 3 - m * (-3 + 4 * ss * ss))
        (by linarith : (0:ℝ) ≤ 3 - (-3 + 4 * m * m)),
      mul_nonneg (by linarith : (0:ℝ) ≤ 3 + m * (-3 + 4 * ss * ss))
        (by linarith : (0:ℝ) ≤ (-3 + 4 * m * m) + 3)]
  have hq6a : -(18 / 1000) ≤ B * (m * (-3 + 4 * ss * ss) * (-3 + 4 * m * m)) := by
    nlinarith [mul_nonneg hB0
      (by linarith : (0:ℝ) ≤ m * (-3 + 4 * ss * ss) * (-3 + 4 * m * m) + 9), hB2]
  have hq6b : B * (m * (-3 + 4 * ss * ss) * (-3 + 4 * m * m)) ≤ 18 / 1000 := by
    nlinarith [mul_nonneg hB0
      (by linarith : (0:ℝ) ≤ 9 - m * (-3 + 4 * ss * ss) * (-3 + 4 * m * m)), hB2]
  have hinr1 : -(1003 / 1000 : ℝ) ≤ cs * (-1 + 2 * m * m) -
      B / 6 * m * (-3 + 4 * ss * ss) * (-3 + 4 * m * m) := by
    have : B / 6 * m * (-3 + 4 * ss * ss) * (-3 + 4 * m * m) =
        B * (m * (-3 + 4 * ss * ss) * (-3 + 4 * m * m)) / 6 := by ring
    rw [this]
    linarith [hq6b]
  have hinr2 : cs * (-1 + 2 * m * m) -
      B / 6 * m * (-3 + 4 * ss * ss) * (-3 + 4 * m * m) ≤ (1003 / 1000 : ℝ) := by
    have : B / 6 * m * (-3 + 4 * ss * ss) * (-3 + 4 * m * m) =
        B * (m * (-3 + 4 * ss * ss) * (-3 + 4 * m * m)) / 6 := by ring
    rw [this]
    linarith [hq6a]
  have hTa : -(1002 / 1000 : ℝ) ≤ m + B / 4 * (cs * (-1 + 2 * m * m) -
      B / 6 * m * (-3 + 4 * ss * ss) * (-3 + 4 * m * m)) := by
    nlinarith [mul_nonneg hB0 (by linarith :
      (0:ℝ) ≤ cs * (-1 + 2 * m * m) -
        B / 6 * m * (-3 + 4 * ss * ss) * (-3 + 4 * m * m) + 1003 / 1000), hB2]
  have hTb : m + B / 4 * (cs * (-1 + 2 * m * m) -
      B / 6 * m * (-3 + 4 * ss * ss) * (-3 + 4 * m * m)) ≤ (1002 / 1000 : ℝ) := by
    nlinarith [mul_nonneg hB0 (by linarith :
      (0:ℝ) ≤ 1003 / 1000 - (cs * (-1 + 2 * m * m) -
        B / 6 * m * (-3 + 4 * ss * ss) * (-3 + 4 * m * m))), hB2]
  -- Δσ is below σ
  have hBss : 0 ≤ B * ss := mul_nonneg hB0 hss0.le
  have hBss2 : B * ss ≤ 2 / 1000 * ss := mul_le_mul_of_nonneg_right hB2 hss0.le
  have hds2 : ds ≤ 3 / 1000 * ss := by
    rw [hds]
    have h6 : B * ss * (m + B / 4 * (cs * (-1 + 2 * m * m) -
        B / 6 * m * (-3 + 4 * ss * ss) * (-3 + 4 * m * m))) ≤
        (B * ss) * (1002 / 1000) := by
      exact mul_le_mul_of_nonneg_left hTb hBss
    nlinarith [h6, hBss2, hss0]
  have hposd : 0 < sg - ds := by
    have : (3 / 1000 : ℝ) * ss ≤ ss := by nlinarith [hss0]
    linarith [hsslt, hds2]
  have hbpos : (0 : ℝ) < WGS84_b := by norm_num [WGS84_b]
  have hApos : (0 : ℝ) < A := by linarith
  exact le_of_lt (mul_pos (mul_pos hbpos hApos) hposd)

/-- The initial bearing normalization lands in `[0, 360)`. -/
lemma bearing_bounds (y x : ℝ) :
    0 ≤ jsRem (toDeg (jsAtan2 y x) + 360) 360 ∧
      jsRem (toDeg (jsAtan2 y x) + 360) 360 < 360 := by
  have hpi := Real.pi_pos
  have h1 : -Real.pi < jsAtan2 y x := neg_pi_lt_jsAtan2 y x
  have harg : 0 ≤ toDeg (jsAtan2 y x) + 360 := by
    unfold toDeg
    have h3 : (-180 : ℝ) < jsAtan2 y x * 180 / Real.pi := by
      rw [lt_div_iff hpi]
      nlinarith [h1]
    linarith
  exact jsRem_nonneg_lt _ 360 harg (by norm_num)

/-- The result record built by `invFinish` from variables satisfying the body
invariants respects the `InverseResult` contract. -/
lemma invFinish_props (e : InvEnv) (v : InvVars)
    (hss : 0 < v.sinSigma) (hpy : v.sinSigma ^ 2 + v.cosSigma ^ 2 = 1)
    (hq0 : 0 ≤ v.cosSqAlpha) (hq1 : v.cosSqAlpha ≤ 1)
    (hm1 : -1 ≤ v.cos2SigmaM) (hm2 : v.cos2SigmaM ≤ 1)
    (hsig : v.sigma = jsAtan2 v.sinSigma v.cosSigma) :
    0 ≤ (invFinish e v).distance ∧ 0 ≤ (invFinish e v).initialBearing ∧
      (invFinish e v).initialBearing < 360 ∧
      (invFinish e v).isCoincident = false := by
  obtain ⟨hu0, hu1⟩ := uSq_bounds v.cosSqAlpha hq0 hq1
  have hd := finish_dist_nonneg v.sinSigma v.cosSigma v.cos2SigmaM v.sigma
    _ _ _ _ hss hpy hm1 hm2 hu0 hu1 rfl rfl rfl hsig
  have hbr := bearing_bounds (e.cosU2 * v.sinLambda)
    (e.cosU1 * e.sinU2 - e.sinU1 * e.cosU2 * v.cosLambda)
  exact ⟨hd, hbr.1, hbr.2, rfl⟩

end Vicenty

/-- Claim C1: for every valid `GeodeticPoint` `p` (latitude in `[-90, 90]`,
longitude in `[-180, 180]`), `inverse(p, p)` returns
`{distance: 0, initialBearing: 0, isCoincident: true}`: the coincidence test
`sinSigma = 0` fires on the first iteration (even with the loop budget cut to
a single iteration the outcome is already `coincident`), a normal non-error
result. -/
theorem inverse_coincident_on_equal_point (lat lon : ℝ)
    (h1 : -90 ≤ lat) (h2 : lat ≤ 90) (h3 : -180 ≤ lon) (h4 : lon ≤ 180) :
    Vicenty.calculateDistance lat lon lat lon = .ok ⟨0, 0, true⟩ ∧
      (Vicenty.invLoop (Vicenty.mkInvEnv lat lon lat lon) 1
        (Vicenty.mkInvEnv lat lon lat lon).L).1 = .coincident :=
  ⟨Vicenty.calculateDistance_same lat lon, Vicenty.invLoop_diag_first lat lon⟩

/-- Witness for C1 at the point (0°, 0°). -/
theorem inverse_coincident_on_equal_point_witness :
    (-90 ≤ (0 : ℝ) ∧ (0 : ℝ) ≤ 90 ∧ -180 ≤ (0 : ℝ) ∧ (0 : ℝ) ≤ 180) ∧
      (Vicenty.calculateDistance 0 0 0 0 = .ok ⟨0, 0, true⟩ ∧
        (Vicenty.invLoop (Vicenty.mkInvEnv 0 0 0 0) 1
          (Vicenty.mkInvEnv 0 0 0 0).L).1 = .coincident) :=
  ⟨by norm_num,
    inverse_coincident_on_equal_point 0 0 (by norm_num) (by norm_num)
      (by norm_num) (by norm_num)⟩

/-- Claim C8: every result returned by the inverse operation satisfies the
`InverseResult` invariant: the distance is nonnegative, the initial bearing
(normalized via `(deg + 360) mod 360`) lies in `[0, 360)`, and a coincident
result carries distance 0 and bearing 0. -/
theorem inverse_result_invariant (lat1 lon1 lat2 lon2 : ℝ)
    (r : Vicenty.InverseResult)
    (h : Vicenty.calculateDistance lat1 lon1 lat2 lon2 = .ok r) :
    0 ≤ r.distance ∧ 0 ≤ r.initialBearing ∧ r.initialBearing < 360 ∧
      (r.isCoincident = true → r.distance = 0 ∧ r.initialBearing = 0) := by
  simp only [Vicenty.calculateDistance] at h
  cases hout : (Vicenty.invLoop (Vicenty.mkInvEnv lat1 lon1 lat2 lon2) 100
      (Vicenty.mkInvEnv lat1 lon1 lat2 lon2).L).1 with
  | coincident =>
    rw [hout] at h
    have hr : Vicenty.InverseResult.mk 0 0 true = r := by
      simpa using h
    rw [← hr]
    refine ⟨le_refl _, le_refl _, by norm_num, fun _ => ⟨rfl, rfl⟩⟩
  | converged v =>
    rw [hout] at h
    have hr : Vicenty.invFinish (Vicenty.mkInvEnv lat1 lon1 lat2 lon2) v = r := by
      simpa using h
    obtain ⟨lam0, hb⟩ := Vicenty.invLoop_converged_body
      (Vicenty.mkInvEnv lat1 lon1 lat2 lon2) 100
      (Vicenty.mkInvEnv lat1 lon1 lat2 lon2).L v hout
    obtain ⟨g1, g2, g3, g4, g5, g6, g7⟩ := Vicenty.invBody_props
      (Vicenty.mkInvEnv lat1 lon1 lat2 lon2)
      (Vicenty.mkInvEnv_unit₁ lat1 lon1 lat2 lon2).1
      (Vicenty.mkInvEnv_unit₂ lat1 lon1 lat2 lon2).1 lam0 v hb
    obtain ⟨hd, hb1, hb2, hcf⟩ := Vicenty.invFinish_props
      (Vicenty.mkInvEnv lat1 lon1 lat2 lon2) v g1 g2 g3 g4 g5 g6 g7
    rw [← hr]
    refine ⟨hd, hb1, hb2, fun hco => ?_⟩
    rw [hcf] at hco
    exact absurd hco (by simp)
  | exhausted =>
    rw [hout] at h
    exact absurd h (by simp)

/-- Witness for C8 at the coincident diagonal input (0°, 0°). -/
theorem inverse_result_invariant_witness :
    Vicenty.calculateDistance 0 0 0 0 =
        .ok ⟨0, 0, true⟩ ∧
      (0 ≤ (Vicenty.InverseResult.mk 0 0 true).distance ∧
        0 ≤ (Vicenty.InverseResult.mk 0 0 true).initialBearing ∧
        (Vicenty.InverseResult.mk 0 0 true).initialBearing < 360 ∧
        ((Vicenty.InverseResult.mk 0 0 true).isCoincident = true →
          (Vicenty.InverseResult.mk 0 0 true).distance = 0 ∧
            (Vicenty.InverseResult.mk 0 0 true).initialBearing = 0)) :=
  ⟨Vicenty.calculateDistance_same 0 0,
    inverse_result_invariant 0 0 0 0 ⟨0, 0, true⟩
      (Vicenty.calculateDistance_same 0 0)⟩

/-- Claim C3: in both the inverse and the direct operation, `ConvergenceError`
is raised iff the iterative loop runs through its whole 100-test budget with
every convergence test failing (successive difference above 1e-12): for the
inverse this is 100 λ-updates each with `|λ - λ_prev| > 1e-12` (and no
coincidence exit); for the direct, 100 failed σ tests (the first against the
2π sentinel, then 99 successive differences).  Conversely any run whose test
sequence meets the threshold within the budget returns a result. -/
theorem convergence_error_iff :
    (∀ lat1 lon1 lat2 lon2 : ℝ,
      Vicenty.calculateDistance lat1 lon1 lat2 lon2 =
          .error .convergenceError ↔
        ∀ k < 100, ∃ v,
          Vicenty.invBody (Vicenty.mkInvEnv lat1 lon1 lat2 lon2)
            (Vicenty.invIter (Vicenty.mkInvEnv lat1 lon1 lat2 lon2)
              (Vicenty.mkInvEnv lat1 lon1 lat2 lon2).L k) = some v ∧
          1e-12 < |v.lambdaNew -
            Vicenty.invIter (Vicenty.mkInvEnv lat1 lon1 lat2 lon2)
              (Vicenty.mkInvEnv lat1 lon1 lat2 lon2).L k|) ∧
    (∀ lat1 lon1 s brg : ℝ,
      Vicenty.calculateDestination lat1 lon1 s brg =
          .error .convergenceError ↔
        ∀ k < 100,
          1e-12 < |Vicenty.dirIter (Vicenty.mkDirEnv lat1 lon1 s brg)
              (Vicenty.mkDirEnv lat1 lon1 s brg).sOverbA k -
            Vicenty.dirPrev (Vicenty.mkDirEnv lat1 lon1 s brg)
              (Vicenty.mkDirEnv lat1 lon1 s brg).sOverbA (2 * Real.pi) k|) := by
  constructor
  · intro lat1 lon1 lat2 lon2
    rw [Vicenty.calculateDistance_error_iff,
      Vicenty.invLoop_exhausted_iff (Vicenty.mkInvEnv lat1 lon1 lat2 lon2) 100]
  · intro lat1 lon1 s brg
    rw [Vicenty.calculateDestination_error_iff,
      show (100 : ℕ) = 99 + 1 from rfl,
      Vicenty.dirLoop_exhausted_iff (Vicenty.mkDirEnv lat1 lon1 s brg) 99]

/-- Claim C9: both operations terminate on every real input with an explicit
iteration budget: the loop body runs at most 100 times, and each call either
returns a result or raises `ConvergenceError` as a first-class failure. -/
theorem bounded_iterations :
    ∀ lat1 lon1 lat2 lon2 s brg : ℝ,
      (Vicenty.invLoop (Vicenty.mkInvEnv lat1 lon1 lat2 lon2) 100
          (Vicenty.mkInvEnv lat1 lon1 lat2 lon2).L).2 ≤ 100 ∧
      (Vicenty.dirLoop (Vicenty.mkDirEnv lat1 lon1 s brg) 100
          (Vicenty.mkDirEnv lat1 lon1 s brg).sOverbA (2 * Real.pi) none).2 ≤
        100 ∧
      ((∃ r, Vicenty.calculateDistance lat1 lon1 lat2 lon2 = .ok r) ∨
        Vicenty.calculateDistance lat1 lon1 lat2 lon2 =
          .error .convergenceError) ∧
      ((∃ r, Vicenty.calculateDestination lat1 lon1 s brg = .ok r) ∨
        Vicenty.calculateDestination lat1 lon1 s brg =
          .error .convergenceError) := by
  intro lat1 lon1 lat2 lon2 s brg
  refine ⟨Vicenty.invLoop_count_le _ 100 _, ?_, ?_, ?_⟩
  · rw [show (100 : ℕ) = 99 + 1 from rfl]
    have := Vicenty.dirLoop_count_le (Vicenty.mkDirEnv lat1 lon1 s brg) 99
      (Vicenty.mkDirEnv lat1 lon1 s brg).sOverbA (2 * Real.pi) none
    omega
  · cases h : Vicenty.calculateDistance lat1 lon1 lat2 lon2 with
    | ok r => exact Or.inl ⟨r, rfl⟩
    | error err => cases err; exact Or.inr rfl
  · cases h : Vicenty.calculateDestination lat1 lon1 s brg with
    | ok r => exact Or.inl ⟨r, rfl⟩
    | error err => cases err; exact Or.inr rfl

/-- Claim C5: for every finite positive `rawValue`, the atmosphere calculation
fails with `OutOfRange` iff the hPa-normalized pressure lies outside
`[850, 1100]`; on success, `warning` is `true` iff the normalized pressure is
in `[850, 920)` or `(1060, 1100]` (so the boundary values 850 and 1100 succeed
with a warning, 920 and 1060 succeed without one). -/
theorem qnh_range_and_warning (raw : QNH.JSNum) (x : ℝ) (u out : String)
    (hraw : raw = .fin x) (hx : 0 < x) :
    (QNH.calculate raw u out = .error .outOfRange ↔
      (QNH.hPaValue raw u < 850 ∨ 1100 < QNH.hPaValue raw u)) ∧
    (∀ s, QNH.calculate raw u out = .ok s →
      (s.warning = true ↔
        ((850 ≤ QNH.hPaValue raw u ∧ QNH.hPaValue raw u < 920) ∨
          (1060 < QNH.hPaValue raw u ∧ QNH.hPaValue raw u ≤ 1100)))) ∧
    ((∃ s, QNH.calculate raw u out = .ok s) ↔
      ¬(QNH.hPaValue raw u < 850 ∨ 1100 < QNH.hPaValue raw u)) := by
  subst hraw
  have hval : ¬((QNH.JSNum.fin x).isNaN ∨ (QNH.JSNum.fin x).leR 0) := by
    simp only [QNH.JSNum.isNaN, QNH.JSNum.leR, false_or, not_le]
    exact hx
  set p := QNH.hPaValue (.fin x) u with hp
  simp only [QNH.calculate, QNH.hPa_fin, if_neg hval,
    QNH.JSNum.ltR, QNH.JSNum.gtR, QNH.JSNum.toReal]
  by_cases hrange : p < 850 ∨ 1100 < p
  · rw [if_pos hrange]
    refine ⟨⟨fun _ => hrange, fun _ => rfl⟩, fun s hs => by simp at hs, ?_⟩
    constructor
    · rintro ⟨s, hs⟩; simp at hs
    · intro h; exact absurd hrange h
  · rw [if_neg hrange]
    push_neg at hrange
    obtain ⟨hlo, hhi⟩ := hrange
    refine ⟨?_, ?_, ?_⟩
    · constructor
      · intro h; split_ifs at h <;> simp at h
      · intro h
        rcases h with h | h
        · exact absurd h (not_lt.mpr hlo)
        · exact absurd h (not_lt.mpr hhi)
    · intro s hs
      have hws : s.warning = (if p < 920 ∨ 1060 < p then true else false) := by
        split_ifs at hs ⊢ <;> (injection hs with hs'; rw [← hs'])
      rw [hws]
      by_cases hc : p < 920 ∨ 1060 < p
      · rw [if_pos hc]
        simp only [true_iff]
        rcases hc with hc | hc
        · exact Or.inl ⟨hlo, hc⟩
        · exact Or.inr ⟨hc, hhi⟩
      · rw [if_neg hc]
        push_neg at hc
        simp only [Bool.false_eq_true, false_iff]
        rintro (⟨_, hlt⟩ | ⟨hgt, _⟩)
        · exact absurd hlt (not_lt.mpr hc.1)
        · exact absurd hgt (not_lt.mpr hc.2)
    · constructor
      · intro _
        rintro (h | h)
        · exact absurd h (not_lt.mpr hlo)
        · exact absurd h (not_lt.mpr hhi)
      · intro _
        split_ifs <;> exact ⟨_, rfl⟩

/-- Witness for C5 at `calculate(900, 'hPa', 'feet')`. -/
theorem qnh_range_and_warning_witness :
    ((QNH.JSNum.fin (900 : ℝ) = .fin 900) ∧ (0 : ℝ) < 900) ∧
      ((QNH.calculate (.fin 900) "hPa" "feet" = .error .outOfRange ↔
          (QNH.hPaValue (.fin 900) "hPa" < 850 ∨
            1100 < QNH.hPaValue (.fin 900) "hPa")) ∧
        (∀ s, QNH.calculate (.fin 900) "hPa" "feet" = .ok s →
          (s.warning = true ↔
            ((850 ≤ QNH.hPaValue (.fin 900) "hPa" ∧
                QNH.hPaValue (.fin 900) "hPa" < 920) ∨
              (1060 < QNH.hPaValue (.fin 900) "hPa" ∧
                QNH.hPaValue (.fin 900) "hPa" ≤ 1100)))) ∧
        ((∃ s, QNH.calculate (.fin 900) "hPa" "feet" = .ok s) ↔
          ¬(QNH.hPaValue (.fin 900) "hPa" < 850 ∨
            1100 < QNH.hPaValue (.fin 900) "hPa"))) :=
  ⟨⟨rfl, by norm_num⟩,
    qnh_range_and_warning (.fin 900) 900 "hPa" "feet" rfl (by norm_num)⟩

/-- Counterexample to claim C6: the input `+Infinity` is a non-finite value
that the calculation does *not* reject with `InvalidInput` — JS validates with
`isNaN(rawValue) || rawValue <= 0`, both false for `Infinity`, and the range
check then rejects it with `OutOfRange`. -/
theorem qnh_infinity_not_invalid_input :
    QNH.calculate .posInf "hPa" "feet" = .error .outOfRange ∧
      QNH.calculate .posInf "hPa" "feet" ≠ .error .invalidInput := by
  have h : QNH.calculate .posInf "hPa" "feet" = .error .outOfRange := by
    simp [QNH.calculate, QNH.JSNum.isNaN, QNH.JSNum.leR, QNH.JSNum.ltR,
      QNH.JSNum.gtR, QNH.JSNum.mulPos]
  exact ⟨h, by rw [h]; simp⟩

/-- Claim C6 (amended): the atmosphere calculation fails with `InvalidInput`
iff `rawValue` is `NaN` or (JS-)`≤ 0`, i.e. `NaN`, `-Infinity`, or a
nonpositive finite number.  `+Infinity` passes the `isNaN`/`<= 0` validation
and is rejected later, by the range check, with `OutOfRange`. -/
theorem qnh_invalid_input_iff (raw : QNH.JSNum) (u out : String) :
    QNH.calculate raw u out = .error .invalidInput ↔
      (raw = .nan ∨ raw = .negInf ∨ ∃ x, raw = .fin x ∧ x ≤ 0) := by
  cases raw with
  | nan => simp [QNH.calculate, QNH.JSNum.isNaN, QNH.JSNum.leR]
  | negInf => simp [QNH.calculate, QNH.JSNum.isNaN, QNH.JSNum.leR]
  | posInf =>
    have hval : ¬((QNH.JSNum.posInf).isNaN ∨ (QNH.JSNum.posInf).leR 0) := by
      simp [QNH.JSNum.isNaN, QNH.JSNum.leR]
    have hinf : (if u = "inHg" then QNH.JSNum.posInf.mulPos QNH.INHG_TO_HPA
        else QNH.JSNum.posInf) = QNH.JSNum.posInf := by
      by_cases hu : u = "inHg" <;> simp [QNH.JSNum.mulPos, hu]
    simp only [QNH.calculate, if_neg hval, hinf, QNH.JSNum.ltR, QNH.JSNum.gtR]
    simp
  | fin x =>
    by_cases hx : x ≤ 0
    · simp only [QNH.calculate, QNH.JSNum.isNaN, QNH.JSNum.leR, false_or]
      rw [if_pos hx]
      simp only [true_iff, iff_true]
      · exact Or.inr (Or.inr ⟨x, rfl, hx⟩)
    · have hval : ¬((QNH.JSNum.fin x).isNaN ∨ (QNH.JSNum.fin x).leR 0) := by
        simp only [QNH.JSNum.isNaN, QNH.JSNum.leR, false_or]
        exact hx
      simp only [QNH.calculate, if_neg hval, QNH.hPa_fin, QNH.JSNum.ltR,
        QNH.JSNum.gtR, QNH.JSNum.toReal]
      constructor
      · intro h
        split_ifs at h <;> simp_all
      · rintro (h | h | ⟨y, hy, hy0⟩)
        · exact absurd h (by simp)
        · exact absurd h (by simp)
        · injection hy with hy'
          exact absurd (hy' ▸ hy0) hx

namespace QNH

/-- Full evaluation of `calculate` on a finite hPa input inside the
warning-free band, with output unit feet. -/
lemma calculate_feet_eval (x : ℝ) (h1 : 920 ≤ x) (h2 : x ≤ 1060) :
    calculate (.fin x) "hPa" "feet" =
      .ok ⟨some (jsRound (correctionInFeet x)),
        some (jsRound (-correctionInFeet x)), some "ft", false⟩ := by
  have hval : ¬((JSNum.fin x).isNaN ∨ (JSNum.fin x).leR 0) := by
    simp only [JSNum.isNaN, JSNum.leR, false_or, not_le]
    linarith
  simp only [calculate, if_neg hval, hPa_fin, JSNum.ltR, JSNum.gtR,
    JSNum.toReal, hPaValue_hPa]
  have hrange : ¬(x < 850 ∨ 1100 < x) := by
    push_neg
    exact ⟨by linarith, by linarith⟩
  have hwarn : ¬(x < 920 ∨ 1060 < x) := by
    push_neg
    exact ⟨by linarith, by linarith⟩
  rw [if_neg hrange]
  simp [hwarn]

/-- The correction at exactly standard pressure is zero. -/
lemma correctionInFeet_std : correctionInFeet 1013.25 = 0 := by
  unfold correctionInFeet
  rw [show (1013.25 : ℝ) / STANDARD_PRESSURE_HPA = 1 by
      norm_num [STANDARD_PRESSURE_HPA],
    Real.one_rpow]
  ring

lemma jsRound_zero : jsRound (0 : ℝ) = 0 := by
  unfold jsRound
  rw [show (0 : ℝ) + 1 / 2 = 1 / 2 by norm_num, Int.floor_eq_iff]
  norm_num

/-- Full evaluation of `calculate` at standard pressure in feet. -/
lemma calculate_std : calculate (.fin 1013.25) "hPa" "feet" =
    .ok ⟨some 0, some 0, some "ft", false⟩ := by
  have he := calculate_feet_eval 1013.25 (by norm_num) (by norm_num)
  rw [correctionInFeet_std, neg_zero, jsRound_zero] at he
  exact he

end QNH

/-- Counterexample to claim C7: at the pressure `pHalf` (≈ 1013.268 hPa) whose
exact correction is ½ ft, `calculate(pHalf, 'hPa', 'feet')` succeeds with
`correction = round(½) = 1` but `pressureAltitude = round(-½) = 0`, and
`0 ≠ -1`: the returned pair violates `pressureAltitude = -correction` because
`Math.round` (floor of `x + ½`) is not odd under negation on half-integers. -/
theorem qnh_pressure_altitude_counterexample :
    QNH.calculate (.fin QNH.pHalf) "hPa" "feet" =
      .ok ⟨some 1, some 0, some "ft", false⟩ ∧ (0 : ℤ) ≠ -1 := by
  obtain ⟨hlo, hhi⟩ := QNH.pHalf_bounds
  have he := QNH.calculate_feet_eval QNH.pHalf (by linarith) (by linarith)
  rw [QNH.correctionInFeet_pHalf] at he
  have h1 : jsRound ((1 : ℝ) / 2) = 1 := by
    unfold jsRound
    rw [show (1 : ℝ) / 2 + 1 / 2 = 1 by norm_num]
    exact Int.floor_one
  have h0 : jsRound (-((1 : ℝ) / 2)) = 0 := by
    unfold jsRound
    rw [show -((1 : ℝ) / 2) + 1 / 2 = 0 by norm_num]
    exact Int.floor_zero
  rw [h1, h0] at he
  exact ⟨he, by decide⟩

/-- Claim C7 (amended): for every successful atmosphere calculation, the
returned pair satisfies `pressureAltitude = -correction` whenever the
unit-converted correction value is not an exact half-odd-integer; when it is
exactly `k + ½` for an integer `k`, `pressureAltitude = -correction + 1`
(both fields are obtained by rounding `v` and `-v`, and JS `Math.round`, which
is `⌊x + ½⌋`, is odd under negation except on that grid). -/
theorem qnh_pressure_altitude_neg_correction (raw : QNH.JSNum) (u out : String)
    (s : QNH.AtmosphereResult) (c pa : ℤ)
    (h : QNH.calculate raw u out = .ok s)
    (hc : s.correction = some c) (hpa : s.pressureAltitude = some pa) :
    ((¬ ∃ k : ℤ, QNH.convertedCorrection raw u out = k + 1 / 2) → pa = -c) ∧
      ((∃ k : ℤ, QNH.convertedCorrection raw u out = k + 1 / 2) →
        pa = -c + 1) := by
  simp only [QNH.calculate] at h
  by_cases hv : raw.isNaN ∨ raw.leR 0
  · rw [if_pos hv] at h
    exact absurd h (by simp)
  rw [if_neg hv] at h
  by_cases hr : (if u = "inHg" then raw.mulPos QNH.INHG_TO_HPA else raw).ltR 850 ∨
      (if u = "inHg" then raw.mulPos QNH.INHG_TO_HPA else raw).gtR 1100
  · rw [if_pos hr] at h
    exact absurd h (by simp)
  rw [if_neg hr] at h
  by_cases hFL : out = "FL"
  · rw [if_pos hFL] at h
    have hs := Except.ok.inj h
    rw [← hs] at hc hpa
    have hcv : c = jsRound (QNH.correctionInFeet (QNH.hPaValue raw u) / 100) :=
      (Option.some.inj hc).symm
    have hpav : pa =
        jsRound (-(QNH.correctionInFeet (QNH.hPaValue raw u) / 100)) := by
      rw [← neg_div]
      exact (Option.some.inj hpa).symm
    have hveq : QNH.convertedCorrection raw u out =
        QNH.correctionInFeet (QNH.hPaValue raw u) / 100 := by
      unfold QNH.convertedCorrection
      rw [if_pos hFL]
    rw [hveq]
    exact jsRound_pair _ c pa hcv hpav
  rw [if_neg hFL] at h
  by_cases hfe : out = "feet"
  · rw [if_pos hfe] at h
    have hs := Except.ok.inj h
    rw [← hs] at hc hpa
    have hcv : c = jsRound (QNH.correctionInFeet (QNH.hPaValue raw u)) :=
      (Option.some.inj hc).symm
    have hpav : pa = jsRound (-QNH.correctionInFeet (QNH.hPaValue raw u)) :=
      (Option.some.inj hpa).symm
    have hveq : QNH.convertedCorrection raw u out =
        QNH.correctionInFeet (QNH.hPaValue raw u) := by
      unfold QNH.convertedCorrection
      rw [if_neg hFL, if_pos hfe]
    rw [hveq]
    exact jsRound_pair _ c pa hcv hpav
  rw [if_neg hfe] at h
  by_cases hm : out = "meters"
  · rw [if_pos hm] at h
    have hs := Except.ok.inj h
    rw [← hs] at hc hpa
    have hcv : c = jsRound (QNH.correctionInFeet (QNH.hPaValue raw u) *
        QNH.FEET_TO_METERS) := (Option.some.inj hc).symm
    have hpav : pa = jsRound (-(QNH.correctionInFeet (QNH.hPaValue raw u) *
        QNH.FEET_TO_METERS)) := by
      rw [← neg_mul]
      exact (Option.some.inj hpa).symm
    have hveq : QNH.convertedCorrection raw u out =
        QNH.correctionInFeet (QNH.hPaValue raw u) * QNH.FEET_TO_METERS := by
      unfold QNH.convertedCorrection
      rw [if_neg hFL, if_neg hfe]
    rw [hveq]
    exact jsRound_pair _ c pa hcv hpav
  · rw [if_neg hm] at h
    have hs := Except.ok.inj h
    rw [← hs] at hc
    exact absurd hc (by simp)

/-- Witness for amended C7 at standard pressure, where the converted
correction is exactly 0 and the pair is `(0, 0)`. -/
theorem qnh_pressure_altitude_neg_correction_witness :
    (QNH.calculate (.fin (1013.25 : ℝ)) "hPa" "feet" =
        .ok ⟨some 0, some 0, some "ft", false⟩) ∧
      (((¬ ∃ k : ℤ, QNH.convertedCorrection (.fin (1013.25 : ℝ)) "hPa" "feet" =
            k + 1 / 2) → (0 : ℤ) = -0) ∧
        ((∃ k : ℤ, QNH.convertedCorrection (.fin (1013.25 : ℝ)) "hPa" "feet" =
            k + 1 / 2) → (0 : ℤ) = -0 + 1)) :=
  ⟨QNH.calculate_std,
    qnh_pressure_altitude_neg_correction (.fin 1013.25) "hPa" "feet"
      ⟨some 0, some 0, some "ft", false⟩ 0 0 QNH.calculate_std rfl rfl⟩

/-- Claim C10: for every valid pressure input, an `outputUnit` other than
`'FL'`, `'feet'` and `'meters'` still yields a success record (`error: false`,
with the computed `warning` flag) whose `correction`, `pressureAltitude` and
`unit` fields are all `undefined`. -/
theorem qnh_unknown_output_unit (raw : QNH.JSNum) (x : ℝ) (u out : String)
    (hraw : raw = .fin x) (hx : 0 < x)
    (hlo : ¬ QNH.hPaValue raw u < 850) (hhi : ¬ 1100 < QNH.hPaValue raw u)
    (h1 : out ≠ "FL") (h2 : out ≠ "feet") (h3 : out ≠ "meters") :
    QNH.calculate raw u out = .ok ⟨none, none, none,
      if QNH.hPaValue raw u < 920 ∨ 1060 < QNH.hPaValue raw u then true
      else false⟩ := by
  subst hraw
  have hval : ¬((QNH.JSNum.fin x).isNaN ∨ (QNH.JSNum.fin x).leR 0) := by
    simp only [QNH.JSNum.isNaN, QNH.JSNum.leR, false_or, not_le]
    exact hx
  have hrange : ¬(QNH.hPaValue (.fin x) u < 850 ∨
      1100 < QNH.hPaValue (.fin x) u) := by
    rintro (h | h)
    · exact hlo h
    · exact hhi h
  simp only [QNH.calculate, if_neg hval, QNH.hPa_fin, QNH.JSNum.ltR,
    QNH.JSNum.gtR, QNH.JSNum.toReal, if_neg hrange, if_neg h1, if_neg h2,
    if_neg h3]

/-- Witness for C10 at `calculate(1000, 'hPa', 'yards')`. -/
theorem qnh_unknown_output_unit_witness :
    ((QNH.JSNum.fin (1000 : ℝ) = .fin 1000) ∧ (0 : ℝ) < 1000 ∧
      ¬ QNH.hPaValue (.fin 1000) "hPa" < 850 ∧
      ¬ (1100 : ℝ) < QNH.hPaValue (.fin 1000) "hPa" ∧
      "yards" ≠ "FL" ∧ "yards" ≠ "feet" ∧ "yards" ≠ "meters") ∧
      QNH.calculate (.fin 1000) "hPa" "yards" = .ok ⟨none, none, none,
        if QNH.hPaValue (.fin 1000) "hPa" < 920 ∨
            1060 < QNH.hPaValue (.fin 1000) "hPa" then true
        else false⟩ :=
  ⟨⟨rfl, by norm_num, by rw [QNH.hPaValue_hPa]; norm_num,
      by rw [QNH.hPaValue_hPa]; norm_num, by decide, by decide, by decide⟩,
    qnh_unknown_output_unit (.fin 1000) 1000 "hPa" "yards" rfl (by norm_num)
      (by rw [QNH.hPaValue_hPa]; norm_num) (by rw [QNH.hPaValue_hPa]; norm_num)
      (by decide) (by decide) (by decide)⟩

end
